import Mathlib

set_option maxRecDepth 40000

/-!
Shallow embedding of the holidayexcel repository.

The date model embeds the proleptic-Gregorian calendar arithmetic of Python's
`datetime.date` (ordinals count days from 0001-01-01 = day 1), which is what
`holidayexcel/utils/datetime.py` builds on via date comparison, subtraction and
`date + timedelta(n)`.
-/

/-- Leap-year test of the proleptic Gregorian calendar (Python `calendar.isleap`). -/
def isleap (y : Nat) : Bool := y % 4 == 0 && (y % 100 != 0 || y % 400 == 0)

/-- Number of days of a month (`calendar.monthrange(year, m)[1]`); 0 outside 1..12. -/
def days_in_month (leap : Bool) : Nat → Nat
  | 1 => 31
  | 2 => if leap then 29 else 28
  | 3 => 31
  | 4 => 30
  | 5 => 31
  | 6 => 30
  | 7 => 31
  | 8 => 31
  | 9 => 30
  | 10 => 31
  | 11 => 30
  | 12 => 31
  | _ => 0

/-- Days of the year strictly before month `m` (so `days_before_month leap 1 = 0`). -/
def days_before_month (leap : Bool) : Nat → Nat
  | 0 => 0
  | m + 1 => days_before_month leap m + days_in_month leap m

/-- A calendar date as Python's `datetime.date` stores it: year, month, day. -/
structure Date where
  year : Nat
  month : Nat
  day : Nat
deriving DecidableEq

/-- Number of days of all years strictly before year `y` (proleptic Gregorian). -/
def days_before_year (y : Nat) : Nat :=
  365 * (y - 1) + (y - 1) / 4 - (y - 1) / 100 + (y - 1) / 400

/-- Python's `date.toordinal`: 0001-01-01 has ordinal 1. -/
def Date.toordinal (d : Date) : Nat :=
  days_before_year d.year + days_before_month (isleap d.year) d.month + d.day

/-- Number of days of year `y`. -/
def days_in_year (y : Nat) : Nat := if isleap y then 366 else 365

/-- The dates representable by Python's `datetime.date` (we do not impose the
upper year bound 9999, which no claim touches). -/
def Date.valid (d : Date) : Prop :=
  1 ≤ d.year ∧ 1 ≤ d.month ∧ d.month ≤ 12 ∧ 1 ≤ d.day ∧
    d.day ≤ days_in_month (isleap d.year) d.month

instance (d : Date) : Decidable d.valid := by
  unfold Date.valid; infer_instance

/-- Turn a 1-based day-of-year `k` into a (month, day) pair by walking the
months starting at `m`; `fuel` bounds the walk (11 steps reach December). -/
def month_of_doy (leap : Bool) : Nat → Nat → Nat → Nat × Nat
  | 0, m, k => (m, k)
  | fuel + 1, m, k =>
    if k ≤ days_in_month leap m then (m, k)
    else month_of_doy leap fuel (m + 1) (k - days_in_month leap m)

/-- Worker for `Date.fromordinal`: `n` is the 1-based day offset from Jan 1 of
year `y`; walks whole years, then resolves month and day. -/
def Date.fromordinalAux : Nat → Nat → Nat → Date
  | 0, y, _ => ⟨y, 1, 1⟩
  | fuel + 1, y, n =>
    if n ≤ days_in_year y then
      ⟨y, (month_of_doy (isleap y) 11 1 n).1, (month_of_doy (isleap y) 11 1 n).2⟩
    else Date.fromordinalAux fuel (y + 1) (n - days_in_year y)

/-- Python's `date.fromordinal` (inverse of `toordinal` on valid dates). -/
def Date.fromordinal (n : Nat) : Date := Date.fromordinalAux n 1 n

/-- Python date comparison `a < b` (dates compare by ordinal). -/
def Date.lt (a b : Date) : Prop := a.toordinal < b.toordinal

/-- Python date comparison `a <= b`. -/
def Date.le (a b : Date) : Prop := a.toordinal ≤ b.toordinal

instance (a b : Date) : Decidable (Date.lt a b) := by
  unfold Date.lt; infer_instance

instance (a b : Date) : Decidable (Date.le a b) := by
  unfold Date.le; infer_instance

/-- Python's builtin `max(a, b)` on dates: returns `b` only if `a < b`. -/
def pymax (a b : Date) : Date := if Date.lt a b then b else a

/-- Python's builtin `min(a, b)` on dates: returns `b` only if `b < a`. -/
def pymin (a b : Date) : Date := if Date.lt b a then b else a

/-- Python's `date + timedelta(n)` for `n ≥ 0`. -/
def Date.addDays (d : Date) (n : Nat) : Date := Date.fromordinal (d.toordinal + n)

/-- Python's `date.weekday()`: Monday = 0 .. Sunday = 6 (ordinal 1 is a Monday). -/
def Date.weekday (d : Date) : Nat := (d.toordinal - 1) % 7

/-- `holidayexcel.utils.datetime.truncate_to_year`. -/
def truncate_to_year (date : Date) (year : Nat) : Date :=
  pymin (pymax date ⟨year, 1, 1⟩) ⟨year, 12, 31⟩

/-- `holidayexcel.utils.datetime.date_range`: optionally clamps both ends to
`limit_to_year`, then yields `start + timedelta(n)` for
`n = 0 .. (end - start).days` (an empty sequence when that count is negative,
as Python's `range` is then empty). -/
def date_range (start_date end_date : Date) (limit_to_year : Option Nat) : List Date :=
  let s := match limit_to_year with
    | some y => truncate_to_year start_date y
    | none => start_date
  let e := match limit_to_year with
    | some y => truncate_to_year end_date y
    | none => end_date
  (List.range (((e.toordinal : Int) - (s.toordinal : Int)) + 1).toNat).map
    (fun number => s.addDays number)

/-- `holidayexcel.utils.datetime.year_range`. -/
def year_range (year : Nat) : List Date := date_range ⟨year, 1, 1⟩ ⟨year, 12, 31⟩ none

/-- `holidayexcel.utils.datetime.day_of_year` (`int(date.strftime("%j"))`). -/
def day_of_year (d : Date) : Nat := d.toordinal - days_before_year d.year

/-! ### Calendar arithmetic lemmas -/

theorem days_before_month_succ (leap : Bool) (m : Nat) :
    days_before_month leap (m + 1) = days_before_month leap m + days_in_month leap m := rfl

theorem days_before_month_step (leap : Bool) (m : Nat) :
    days_before_month leap m ≤ days_before_month leap (m + 1) := by
  rw [days_before_month_succ]; omega

theorem days_before_month_mono (leap : Bool) {m m' : Nat} (h : m ≤ m') :
    days_before_month leap m ≤ days_before_month leap m' := by
  induction m', h using Nat.le_induction with
  | base => exact le_refl _
  | succ k hk ih => exact le_trans ih (days_before_month_step leap k)

theorem days_before_month_thirteen (leap : Bool) :
    days_before_month leap 13 = if leap then 366 else 365 := by
  cases leap <;> rfl

theorem days_before_year_succ {y : Nat} (hy : 1 ≤ y) :
    days_before_year (y + 1) = days_before_year y + days_in_year y := by
  have e1 : y - 1 + 1 = y := by omega
  have h4 : y / 4 = (y - 1) / 4 + if 4 ∣ y then 1 else 0 := by
    have h := Nat.succ_div (y - 1) 4
    rwa [e1] at h
  have h100 : y / 100 = (y - 1) / 100 + if 100 ∣ y then 1 else 0 := by
    have h := Nat.succ_div (y - 1) 100
    rwa [e1] at h
  have h400 : y / 400 = (y - 1) / 400 + if 400 ∣ y then 1 else 0 := by
    have h := Nat.succ_div (y - 1) 400
    rwa [e1] at h
  have hd4 : (4 ∣ y) ↔ y % 4 = 0 := Nat.dvd_iff_mod_eq_zero
  have hd100 : (100 ∣ y) ↔ y % 100 = 0 := Nat.dvd_iff_mod_eq_zero
  have hd400 : (400 ∣ y) ↔ y % 400 = 0 := Nat.dvd_iff_mod_eq_zero
  have h100to4 : y % 100 = 0 → y % 4 = 0 := fun h =>
    hd4.mp (dvd_trans (by norm_num) (hd100.mpr h))
  have h400to100 : y % 400 = 0 → y % 100 = 0 := fun h =>
    hd100.mp (dvd_trans (by norm_num) (hd400.mpr h))
  unfold days_before_year days_in_year isleap
  have e2 : y + 1 - 1 = y := by omega
  rw [e2, h4, h100, h400]
  by_cases hm4 : y % 4 = 0
  · by_cases hm100 : y % 100 = 0
    · by_cases hm400 : y % 400 = 0
      · rw [if_pos (hd4.mpr hm4), if_pos (hd100.mpr hm100), if_pos (hd400.mpr hm400)]
        have hb : (y % 4 == 0 && (y % 100 != 0 || y % 400 == 0)) = true := by
          simp [hm4, hm400]
        rw [hb]
        simp only [if_true]
        omega
      · rw [if_pos (hd4.mpr hm4), if_pos (hd100.mpr hm100),
          if_neg (fun h => hm400 (hd400.mp h))]
        have hb : (y % 4 == 0 && (y % 100 != 0 || y % 400 == 0)) = false := by
          simp [hm4, hm100, hm400]
        rw [hb]
        simp only [Bool.false_eq_true, if_false]
        omega
    · have hm400 : ¬y % 400 = 0 := fun h => hm100 (h400to100 h)
      rw [if_pos (hd4.mpr hm4), if_neg (fun h => hm100 (hd100.mp h)),
        if_neg (fun h => hm400 (hd400.mp h))]
      have hb : (y % 4 == 0 && (y % 100 != 0 || y % 400 == 0)) = true := by
        simp [hm4, hm100]
      rw [hb]
      simp only [if_true]
      omega
  · have hm100 : ¬y % 100 = 0 := fun h => hm4 (h100to4 h)
    have hm400 : ¬y % 400 = 0 := fun h => hm100 (h400to100 h)
    rw [if_neg (fun h => hm4 (hd4.mp h)), if_neg (fun h => hm100 (hd100.mp h)),
      if_neg (fun h => hm400 (hd400.mp h))]
    have hb : (y % 4 == 0 && (y % 100 != 0 || y % 400 == 0)) = false := by
      simp [hm4]
    rw [hb]
    simp only [Bool.false_eq_true, if_false]
    omega

theorem days_in_year_ge (y : Nat) : 365 ≤ days_in_year y := by
  unfold days_in_year; split <;> omega

theorem days_before_year_le {y z : Nat} (hy : 1 ≤ y) (h : y ≤ z) :
    days_before_year y + 365 * (z - y) ≤ days_before_year z := by
  induction z, h using Nat.le_induction with
  | base => omega
  | succ k hk ih =>
    have hs := days_before_year_succ (show 1 ≤ k by omega)
    have hg := days_in_year_ge k
    omega

theorem doy_le_days_in_year {y m dd : Nat} (hm1 : 1 ≤ m) (hm2 : m ≤ 12)
    (hd2 : dd ≤ days_in_month (isleap y) m) :
    days_before_month (isleap y) m + dd ≤ days_in_year y := by
  have h1 : days_before_month (isleap y) m + dd ≤ days_before_month (isleap y) (m + 1) := by
    rw [days_before_month_succ]; omega
  have h2 : days_before_month (isleap y) (m + 1) ≤ days_before_month (isleap y) 13 :=
    days_before_month_mono _ (by omega)
  have h3 : days_in_year y = days_before_month (isleap y) 13 := by
    unfold days_in_year; rw [days_before_month_thirteen]
  omega

theorem month_of_doy_spec (leap : Bool) :
    ∀ fuel m k, 1 ≤ k →
      days_before_month leap m + k ≤ days_before_month leap (m + fuel + 1) →
      m ≤ (month_of_doy leap fuel m k).1 ∧
      (month_of_doy leap fuel m k).1 ≤ m + fuel ∧
      1 ≤ (month_of_doy leap fuel m k).2 ∧
      (month_of_doy leap fuel m k).2 ≤ days_in_month leap (month_of_doy leap fuel m k).1 ∧
      days_before_month leap (month_of_doy leap fuel m k).1 + (month_of_doy leap fuel m k).2 =
        days_before_month leap m + k := by
  intro fuel
  induction fuel with
  | zero =>
    intro m k hk hb
    have hstep := days_before_month_succ leap m
    have hb' : days_before_month leap m + k ≤ days_before_month leap (m + 1) := hb
    show m ≤ m ∧ m ≤ m + 0 ∧ 1 ≤ k ∧ k ≤ days_in_month leap m ∧
      days_before_month leap m + k = days_before_month leap m + k
    exact ⟨le_refl m, by omega, hk, by omega, rfl⟩
  | succ f ih =>
    intro m k hk hb
    simp only [month_of_doy]
    split
    case isTrue h =>
      show m ≤ m ∧ m ≤ m + (f + 1) ∧ 1 ≤ k ∧ k ≤ days_in_month leap m ∧
        days_before_month leap m + k = days_before_month leap m + k
      exact ⟨le_refl m, by omega, hk, h, rfl⟩
    case isFalse h =>
      have hstep := days_before_month_succ leap m
      have hidx : m + 1 + f + 1 = m + (f + 1) + 1 := by omega
      have hb' : days_before_month leap (m + 1) + (k - days_in_month leap m) ≤
          days_before_month leap (m + 1 + f + 1) := by
        rw [hidx]; omega
      obtain ⟨a, b, c, d, e⟩ := ih (m + 1) (k - days_in_month leap m) (by omega) hb'
      exact ⟨by omega, by omega, c, d, by omega⟩

theorem fromordinalAux_spec :
    ∀ fuel y n, 1 ≤ y → 1 ≤ n → n ≤ 365 * fuel →
      (Date.fromordinalAux fuel y n).valid ∧
      (Date.fromordinalAux fuel y n).toordinal = days_before_year y + n := by
  intro fuel
  induction fuel with
  | zero => intro y n _ hn hb; omega
  | succ f ih =>
    intro y n hy hn hb
    simp only [Date.fromordinalAux]
    split
    case isTrue h =>
      have h13 : days_in_year y = days_before_month (isleap y) 13 := by
        unfold days_in_year; rw [days_before_month_thirteen]
      have hidx : (1 : Nat) + 11 + 1 = 13 := by norm_num
      have h0 : days_before_month (isleap y) 1 = 0 := rfl
      have hb13 : days_before_month (isleap y) 1 + n ≤
          days_before_month (isleap y) (1 + 11 + 1) := by
        rw [hidx]; omega
      obtain ⟨a, b, c, d, e⟩ := month_of_doy_spec (isleap y) 11 1 n hn hb13
      constructor
      · show 1 ≤ y ∧ 1 ≤ (month_of_doy (isleap y) 11 1 n).1 ∧
          (month_of_doy (isleap y) 11 1 n).1 ≤ 12 ∧
          1 ≤ (month_of_doy (isleap y) 11 1 n).2 ∧
          (month_of_doy (isleap y) 11 1 n).2 ≤
            days_in_month (isleap y) (month_of_doy (isleap y) 11 1 n).1
        exact ⟨hy, a, by omega, c, d⟩
      · show days_before_year y + days_before_month (isleap y) (month_of_doy (isleap y) 11 1 n).1 +
          (month_of_doy (isleap y) 11 1 n).2 = days_before_year y + n
        omega
    case isFalse h =>
      have hge := days_in_year_ge y
      obtain ⟨v, t⟩ := ih (y + 1) (n - days_in_year y) (by omega) (by omega) (by omega)
      refine ⟨v, ?_⟩
      rw [t, days_before_year_succ hy]
      omega

theorem Date.fromordinal_spec {n : Nat} (hn : 1 ≤ n) :
    (Date.fromordinal n).valid ∧ (Date.fromordinal n).toordinal = n := by
  have h := fromordinalAux_spec n 1 n (le_refl 1) hn (by omega)
  have h0 : days_before_year 1 = 0 := rfl
  unfold Date.fromordinal
  exact ⟨h.1, by omega⟩

theorem Date.toordinal_bounds {d : Date} (hv : d.valid) :
    days_before_year d.year + 1 ≤ d.toordinal ∧
      d.toordinal ≤ days_before_year d.year + days_in_year d.year := by
  obtain ⟨hy, hm1, hm2, hd1, hd2⟩ := hv
  have := doy_le_days_in_year (y := d.year) hm1 hm2 hd2
  unfold Date.toordinal
  omega

theorem Date.toordinal_inj : ∀ {d d' : Date}, d.valid → d'.valid →
    d.toordinal = d'.toordinal → d = d' := by
  rintro ⟨y, m, dd⟩ ⟨y', m', dd'⟩ hv hv' h
  obtain ⟨hy, hm1, hm2, hd1, hd2⟩ := hv
  obtain ⟨hy', hm1', hm2', hd1', hd2'⟩ := hv'
  simp only at hy hm1 hm2 hd1 hd2 hy' hm1' hm2' hd1' hd2'
  unfold Date.toordinal at h
  simp only at h
  have hbound := doy_le_days_in_year (y := y) hm1 hm2 hd2
  have hbound' := doy_le_days_in_year (y := y') hm1' hm2' hd2'
  have hyy : y = y' := by
    by_contra hne
    rcases Nat.lt_or_ge y y' with hlt | hge
    · have h1 := days_before_year_succ (y := y) hy
      have h2 := days_before_year_le (y := y + 1) (z := y') (by omega) (by omega)
      omega
    · have hlt : y' < y := by omega
      have h1 := days_before_year_succ (y := y') hy'
      have h2 := days_before_year_le (y := y' + 1) (z := y) (by omega) (by omega)
      omega
  subst hyy
  have hmm : m = m' := by
    by_contra hne
    rcases Nat.lt_or_ge m m' with hlt | hge
    · have h1 : days_before_month (isleap y) m + dd ≤ days_before_month (isleap y) (m + 1) := by
        rw [days_before_month_succ]; omega
      have h2 : days_before_month (isleap y) (m + 1) ≤ days_before_month (isleap y) m' :=
        days_before_month_mono _ (by omega)
      omega
    · have hlt : m' < m := by omega
      have h1 : days_before_month (isleap y) m' + dd' ≤ days_before_month (isleap y) (m' + 1) := by
        rw [days_before_month_succ]; omega
      have h2 : days_before_month (isleap y) (m' + 1) ≤ days_before_month (isleap y) m :=
        days_before_month_mono _ (by omega)
      omega
  subst hmm
  have hdd : dd = dd' := by omega
  subst hdd
  rfl

theorem Date.fromordinal_toordinal {d : Date} (hv : d.valid) :
    Date.fromordinal d.toordinal = d := by
  have h1 : 1 ≤ d.toordinal := by
    have := Date.toordinal_bounds hv; omega
  obtain ⟨hval, hord⟩ := Date.fromordinal_spec h1
  exact Date.toordinal_inj hval hv hord

theorem Date.toordinal_pos {d : Date} (hv : d.valid) : 1 ≤ d.toordinal := by
  have := Date.toordinal_bounds hv; omega

theorem Date.addDays_valid {d : Date} (hv : d.valid) (n : Nat) : (d.addDays n).valid := by
  have h1 := Date.toordinal_pos hv
  exact (Date.fromordinal_spec (n := d.toordinal + n) (by omega)).1

theorem Date.toordinal_addDays {d : Date} (hv : d.valid) (n : Nat) :
    (d.addDays n).toordinal = d.toordinal + n := by
  have h1 := Date.toordinal_pos hv
  exact (Date.fromordinal_spec (n := d.toordinal + n) (by omega)).2

theorem Date.addDays_zero {d : Date} (hv : d.valid) : d.addDays 0 = d := by
  unfold Date.addDays
  rw [Nat.add_zero]
  exact Date.fromordinal_toordinal hv

/-! ### truncate_to_year: clamping behaviour -/

theorem jan1_toordinal (y : Nat) :
    Date.toordinal ⟨y, 1, 1⟩ = days_before_year y + 1 := rfl

theorem jan1_le_dec31 (y : Nat) :
    Date.toordinal ⟨y, 1, 1⟩ ≤ Date.toordinal ⟨y, 12, 31⟩ := by
  show days_before_year y + days_before_month (isleap y) 1 + 1 ≤
    days_before_year y + days_before_month (isleap y) 12 + 31
  have h0 : days_before_month (isleap y) 1 = 0 := rfl
  omega

theorem truncate_of_within {x : Date} {y : Nat}
    (h1 : Date.le ⟨y, 1, 1⟩ x) (h2 : Date.le x ⟨y, 12, 31⟩) :
    truncate_to_year x y = x := by
  have hni1 : ¬ Date.lt x ⟨y, 1, 1⟩ := by
    unfold Date.lt
    unfold Date.le at h1
    omega
  have hni2 : ¬ Date.lt ⟨y, 12, 31⟩ x := by
    unfold Date.lt
    unfold Date.le at h2
    omega
  unfold truncate_to_year pymin pymax
  rw [if_neg hni1, if_neg hni2]

theorem truncate_of_before {x : Date} {y : Nat} (h : Date.lt x ⟨y, 1, 1⟩) :
    truncate_to_year x y = ⟨y, 1, 1⟩ := by
  have hjd := jan1_le_dec31 y
  have hni : ¬ Date.lt ⟨y, 12, 31⟩ ⟨y, 1, 1⟩ := by
    unfold Date.lt; omega
  unfold truncate_to_year pymin pymax
  rw [if_pos h, if_neg hni]

theorem truncate_of_after {x : Date} {y : Nat} (h : Date.lt ⟨y, 12, 31⟩ x) :
    truncate_to_year x y = ⟨y, 12, 31⟩ := by
  have hjd := jan1_le_dec31 y
  have hh : Date.toordinal ⟨y, 12, 31⟩ < x.toordinal := h
  have hni : ¬ Date.lt x ⟨y, 1, 1⟩ := by
    unfold Date.lt; omega
  unfold truncate_to_year pymin pymax
  rw [if_neg hni, if_pos h]

/-- C9: `truncate_to_year` returns `x` unchanged when Jan 1 of `y` ≤ `x` ≤ Dec 31
of `y`, returns Jan 1 of `y` when `x` is earlier, returns Dec 31 of `y` when `x`
is later, and is idempotent. -/
theorem C9_truncate_to_year_clamps (x : Date) (y : Nat) :
    (Date.le ⟨y, 1, 1⟩ x → Date.le x ⟨y, 12, 31⟩ → truncate_to_year x y = x) ∧
    (Date.lt x ⟨y, 1, 1⟩ → truncate_to_year x y = ⟨y, 1, 1⟩) ∧
    (Date.lt ⟨y, 12, 31⟩ x → truncate_to_year x y = ⟨y, 12, 31⟩) ∧
    truncate_to_year (truncate_to_year x y) y = truncate_to_year x y := by
  have hjd := jan1_le_dec31 y
  refine ⟨fun h1 h2 => truncate_of_within h1 h2, fun h => truncate_of_before h,
    fun h => truncate_of_after h, ?_⟩
  rcases Nat.lt_or_ge x.toordinal (Date.toordinal ⟨y, 1, 1⟩) with hlt | hge
  · rw [truncate_of_before hlt]
    exact truncate_of_within (Nat.le_refl _) hjd
  · rcases Nat.lt_or_ge (Date.toordinal ⟨y, 12, 31⟩) x.toordinal with hgt | hle
    · rw [truncate_of_after hgt]
      exact truncate_of_within hjd (Nat.le_refl _)
    · rw [truncate_of_within hge hle, truncate_of_within hge hle]

/-- Witness for C9 at concrete inputs. -/
theorem C9_truncate_to_year_clamps_witness :
    (Date.le ⟨2024, 1, 1⟩ ⟨2024, 5, 10⟩ ∧ Date.le ⟨2024, 5, 10⟩ ⟨2024, 12, 31⟩ ∧
      truncate_to_year ⟨2024, 5, 10⟩ 2024 = ⟨2024, 5, 10⟩) ∧
    (Date.lt ⟨2023, 3, 1⟩ ⟨2024, 1, 1⟩ ∧ truncate_to_year ⟨2023, 3, 1⟩ 2024 = ⟨2024, 1, 1⟩) ∧
    (Date.lt ⟨2024, 12, 31⟩ ⟨2025, 2, 2⟩ ∧ truncate_to_year ⟨2025, 2, 2⟩ 2024 = ⟨2024, 12, 31⟩) :=
  ⟨⟨by decide, by decide,
      (C9_truncate_to_year_clamps ⟨2024, 5, 10⟩ 2024).1 (by decide) (by decide)⟩,
    ⟨by decide, (C9_truncate_to_year_clamps ⟨2023, 3, 1⟩ 2024).2.1 (by decide)⟩,
    ⟨by decide, (C9_truncate_to_year_clamps ⟨2025, 2, 2⟩ 2024).2.2.1 (by decide)⟩⟩

/-! ### date_range: reversed ranges (C5) -/

/-- C5 counterexample: for `start > end`, `date_range` does not fail with any
error; it returns the empty sequence (the source has no failure path at all). -/
theorem C5_counterexample_date_range_reversed_returns :
    date_range ⟨2024, 5, 10⟩ ⟨2024, 5, 1⟩ none = [] := by decide

/-- C5 (amended): for `startDate > endDate` the date enumeration returns the
empty sequence; no error is raised (the source raises nothing). -/
theorem C5_date_range_reversed_empty {s e : Date} (h : Date.lt e s) :
    date_range s e none = [] := by
  unfold Date.lt at h
  have h0 : (((e.toordinal : Int) - (s.toordinal : Int)) + 1).toNat = 0 := by omega
  show (List.range (((e.toordinal : Int) - (s.toordinal : Int)) + 1).toNat).map
    (fun number => s.addDays number) = []
  rw [h0]
  rfl

/-- Witness for C5's amended theorem at a concrete input. -/
theorem C5_date_range_reversed_empty_witness :
    Date.lt ⟨2024, 5, 1⟩ ⟨2024, 5, 10⟩ ∧ date_range ⟨2024, 5, 10⟩ ⟨2024, 5, 1⟩ none = [] :=
  ⟨by decide, C5_date_range_reversed_empty (by decide)⟩

/-! ### holidayexcel.holidays: the per-date coverage model -/

/-- Modelled from the spec: the `CountryCode` enum of the enums module (the
sources only contain an older revision of that module without it) is a string
ISO country code, with `GERMANY = "DE"` the designated primary country. -/
structure CountryCode where
  iso : String
deriving DecidableEq

def CountryCode.GERMANY : CountryCode := ⟨"DE"⟩

/-- Modelled from the spec: `SubdivisionResponse` records of the missing
openholidaysapi module; a region carries a unique code, which is all that
set membership in the coverage model depends on. -/
structure SubdivisionResponse where
  code : String
deriving DecidableEq

/-- `holidayexcel.utils.collections.scn_to_set` as applied to the already
set-shaped `subdivisions` argument of `add_country_code`: `None` becomes the
empty set, a collection becomes a set. -/
def scn_to_set (argument : Option (Finset SubdivisionResponse)) : Finset SubdivisionResponse :=
  argument.getD ∅

/-- One value of the `HolidayDate._country_codes` dict: Python stores either
the sentinel `True` (nationwide) or a set of `SubdivisionResponse`. -/
inductive CoverageEntry
  | nationwide
  | subs (s : Finset SubdivisionResponse)
deriving DecidableEq

/-- The `HolidayDate._country_codes` dict; `none` models an absent key. -/
abbrev CoverageMap := CountryCode → Option CoverageEntry

/-- `HolidayDate.add_country_code`: raises (models as `Except.error`) unless
exactly one of `subdivisions` / `nation_wide` is given; a nationwide
contribution stores the sentinel; an explicit contribution is ignored when the
entry is already nationwide, and otherwise unioned into the existing set
(`dict.get` with default `set()`). -/
def add_country_code (country_codes : CoverageMap) (country_code : CountryCode)
    (subdivisions : Option (Finset SubdivisionResponse)) (nation_wide : Bool) :
    Except String CoverageMap :=
  if !(subdivisions.isSome ^^ nation_wide) then
    Except.error "Either subdivisions xor nation_wide must be specified."
  else if nation_wide then
    Except.ok (Function.update country_codes country_code (some CoverageEntry.nationwide))
  else
    match (country_codes country_code).getD (CoverageEntry.subs ∅) with
    | CoverageEntry.nationwide => Except.ok country_codes
    | CoverageEntry.subs entry =>
      Except.ok (Function.update country_codes country_code
        (some (CoverageEntry.subs (entry ∪ scn_to_set subdivisions))))

/-- `HolidayDate.get_count_for_country`: `number_of_subdivisions or 1` when the
entry is the nationwide sentinel, else the size of the stored set. -/
def get_count_for_country (country_codes : CoverageMap) (country_code : CountryCode)
    (number_of_subdivisions : Nat) : Nat :=
  match (country_codes country_code).getD (CoverageEntry.subs ∅) with
  | CoverageEntry.nationwide =>
    if number_of_subdivisions = 0 then 1 else number_of_subdivisions
  | CoverageEntry.subs entry => entry.card

/-- `HolidayDate.get_percentage_for_country`: count divided by
`number_of_subdivisions or 1` (Python float division modelled exactly in ℚ). -/
def get_percentage_for_country (country_codes : CoverageMap) (country_code : CountryCode)
    (number_of_subdivisions : Nat) : ℚ :=
  (get_count_for_country country_codes country_code number_of_subdivisions : ℚ) /
    (if number_of_subdivisions = 0 then 1 else (number_of_subdivisions : ℚ))

theorem add_country_code_ok_cases {m : CoverageMap} {cc : CountryCode}
    {subs : Option (Finset SubdivisionResponse)} {nw : Bool} {m' : CoverageMap}
    (h : add_country_code m cc subs nw = Except.ok m') :
    m' = m ∨ m' = Function.update m cc (some CoverageEntry.nationwide) ∨
    ∃ entry, (m cc).getD (CoverageEntry.subs ∅) = CoverageEntry.subs entry ∧
      m' = Function.update m cc
        (some (CoverageEntry.subs (entry ∪ scn_to_set subs))) := by
  unfold add_country_code at h
  split at h
  · exact absurd h (by simp)
  · split at h
    · injection h with h
      exact Or.inr (Or.inl h.symm)
    · split at h
      case h_1 heq =>
        injection h with h
        exact Or.inl h.symm
      case h_2 entry heq =>
        injection h with h
        exact Or.inr (Or.inr ⟨entry, heq, h.symm⟩)

/-- C1: once a (country, date) entry is the nationwide sentinel it stays so: a
later explicit contribution leaves the map unchanged, a later nationwide
contribution is idempotent, and no successful `add_country_code` call (for any
country) can remove the sentinel. -/
theorem C1_nationwide_monotonic (country_codes : CoverageMap) (cc : CountryCode)
    (h : country_codes cc = some CoverageEntry.nationwide) :
    (∀ s : Finset SubdivisionResponse,
      add_country_code country_codes cc (some s) false = Except.ok country_codes) ∧
    add_country_code country_codes cc none true = Except.ok country_codes ∧
    (∀ (cc' : CountryCode) (subs : Option (Finset SubdivisionResponse)) (nw : Bool)
      (m' : CoverageMap), add_country_code country_codes cc' subs nw = Except.ok m' →
      m' cc = some CoverageEntry.nationwide) := by
  refine ⟨?_, ?_, ?_⟩
  · intro s
    unfold add_country_code
    simp [h]
  · unfold add_country_code
    have hupd : Function.update country_codes cc (some CoverageEntry.nationwide) =
        country_codes := by
      rw [← h]
      exact Function.update_eq_self cc country_codes
    simp [hupd]
  · intro cc' subs nw m' hok
    rcases add_country_code_ok_cases hok with rfl | rfl | ⟨entry, hentry, rfl⟩
    · exact h
    · by_cases hcc : cc = cc'
      · subst hcc; rw [Function.update_same]
      · rw [Function.update_noteq hcc, h]
    · by_cases hcc : cc = cc'
      · subst hcc
        rw [h] at hentry
        exact absurd hentry (by simp [Option.getD])
      · rw [Function.update_noteq hcc, h]

/-- Witness for C1 at a concrete nationwide entry. -/
theorem C1_nationwide_monotonic_witness :
    ((fun c => if c = CountryCode.GERMANY then some CoverageEntry.nationwide
        else none) : CoverageMap) CountryCode.GERMANY = some CoverageEntry.nationwide ∧
    add_country_code
      (fun c => if c = CountryCode.GERMANY then some CoverageEntry.nationwide else none)
      CountryCode.GERMANY (some {⟨"BY"⟩}) false =
      Except.ok
        (fun c => if c = CountryCode.GERMANY then some CoverageEntry.nationwide else none) :=
  ⟨by decide,
    (C1_nationwide_monotonic
      (fun c => if c = CountryCode.GERMANY then some CoverageEntry.nationwide else none)
      CountryCode.GERMANY (by decide)).1 {⟨"BY"⟩}⟩

/-- C6: `add_country_code` rejects exactly the ambiguous descriptors — error
when both a subdivision set and nationwide are supplied, error when neither is
supplied, success (with the entry updated) when exactly one is supplied. -/
theorem C6_add_country_code_xor_validation (country_codes : CoverageMap)
    (cc : CountryCode) (s : Finset SubdivisionResponse) :
    add_country_code country_codes cc (some s) true =
      Except.error "Either subdivisions xor nation_wide must be specified." ∧
    add_country_code country_codes cc none false =
      Except.error "Either subdivisions xor nation_wide must be specified." ∧
    add_country_code country_codes cc none true =
      Except.ok (Function.update country_codes cc (some CoverageEntry.nationwide)) ∧
    (∃ m', add_country_code country_codes cc (some s) false = Except.ok m') := by
  refine ⟨by unfold add_country_code; simp, by unfold add_country_code; simp,
    by unfold add_country_code; simp, ?_⟩
  unfold add_country_code
  simp only [Option.isSome_some, Bool.xor_false, Bool.not_true, Bool.false_eq_true,
    if_false, reduceIte]
  split
  · exact ⟨country_codes, rfl⟩
  · exact ⟨_, rfl⟩

/-- C10: a `HolidayDate` that received no contribution for a country code
treats the missing dict entry as the empty set: the count is 0 and the
percentage is 0.0, with no failure. -/
theorem C10_missing_entry_zero (country_codes : CoverageMap) (cc : CountryCode)
    (n : Nat) (h : country_codes cc = none) :
    get_count_for_country country_codes cc n = 0 ∧
    get_percentage_for_country country_codes cc n = 0 := by
  have hc : get_count_for_country country_codes cc n = 0 := by
    unfold get_count_for_country
    rw [h]
    simp
  refine ⟨hc, ?_⟩
  unfold get_percentage_for_country
  rw [hc]
  simp

/-- Witness for C10 on the everywhere-absent map. -/
theorem C10_missing_entry_zero_witness :
    ((fun _ => none) : CoverageMap) CountryCode.GERMANY = none ∧
    get_count_for_country (fun _ => none) CountryCode.GERMANY 16 = 0 ∧
    get_percentage_for_country (fun _ => none) CountryCode.GERMANY 16 = 0 :=
  ⟨rfl, (C10_missing_entry_zero (fun _ => none) CountryCode.GERMANY 16 rfl).1,
    (C10_missing_entry_zero (fun _ => none) CountryCode.GERMANY 16 rfl).2⟩

/-- C3: for an entry that is not nationwide, an explicit contribution unions
into the existing set, adding the same set twice equals adding it once, and the
`{A,B}` then `{B,C}` scenario ends with coverage `{A,B,C}` of count 3. -/
theorem C3_explicit_union_accumulates (country_codes : CoverageMap) (cc : CountryCode)
    (S entry : Finset SubdivisionResponse) (A B C : SubdivisionResponse)
    (hAB : A ≠ B) (hAC : A ≠ C) (hBC : B ≠ C)
    (hentry : (country_codes cc).getD (CoverageEntry.subs ∅) = CoverageEntry.subs entry) :
    add_country_code country_codes cc (some S) false =
      Except.ok (Function.update country_codes cc
        (some (CoverageEntry.subs (entry ∪ S)))) ∧
    add_country_code
      (Function.update country_codes cc (some (CoverageEntry.subs (entry ∪ S))))
      cc (some S) false =
      Except.ok (Function.update country_codes cc
        (some (CoverageEntry.subs (entry ∪ S)))) ∧
    (∀ m₀ : CoverageMap, m₀ cc = none →
      ∃ m₁ m₂, add_country_code m₀ cc (some {A, B}) false = Except.ok m₁ ∧
        add_country_code m₁ cc (some {B, C}) false = Except.ok m₂ ∧
        m₂ cc = some (CoverageEntry.subs {A, B, C}) ∧
        get_count_for_country m₂ cc 3 = 3) := by
  have step : ∀ (m : CoverageMap) (e T : Finset SubdivisionResponse),
      (m cc).getD (CoverageEntry.subs ∅) = CoverageEntry.subs e →
      add_country_code m cc (some T) false =
        Except.ok (Function.update m cc (some (CoverageEntry.subs (e ∪ T)))) := by
    intro m e T he
    unfold add_country_code
    simp only [Option.isSome_some, Bool.xor_false, Bool.not_true, Bool.false_eq_true,
      if_false, reduceIte]
    rw [he]
    rfl
  refine ⟨step country_codes entry S hentry, ?_, ?_⟩
  · have he2 : ((Function.update country_codes cc
        (some (CoverageEntry.subs (entry ∪ S)))) cc).getD (CoverageEntry.subs ∅) =
        CoverageEntry.subs (entry ∪ S) := by
      rw [Function.update_same]
      rfl
    rw [step _ (entry ∪ S) S he2]
    rw [Finset.union_assoc, Finset.union_self]
    rw [Function.update_idem]
  · intro m₀ h₀
    have he0 : (m₀ cc).getD (CoverageEntry.subs ∅) = CoverageEntry.subs ∅ := by
      rw [h₀]; rfl
    have h1 := step m₀ ∅ {A, B} he0
    have he1 : ((Function.update m₀ cc (some (CoverageEntry.subs (∅ ∪ {A, B})))) cc).getD
        (CoverageEntry.subs ∅) = CoverageEntry.subs (∅ ∪ {A, B}) := by
      rw [Function.update_same]; rfl
    have h2 := step _ (∅ ∪ {A, B}) {B, C} he1
    have hset : (∅ ∪ ({A, B} : Finset SubdivisionResponse)) ∪ {B, C} = {A, B, C} := by
      ext x
      simp only [Finset.mem_union, Finset.mem_insert, Finset.mem_singleton,
        Finset.not_mem_empty, false_or]
      tauto
    refine ⟨Function.update m₀ cc (some (CoverageEntry.subs (∅ ∪ {A, B}))),
      Function.update (Function.update m₀ cc (some (CoverageEntry.subs (∅ ∪ {A, B})))) cc
        (some (CoverageEntry.subs ((∅ ∪ {A, B}) ∪ {B, C}))),
      h1, h2, ?_, ?_⟩
    · rw [Function.update_same, hset]
    · unfold get_count_for_country
      rw [Function.update_same]
      simp only [Option.getD_some]
      rw [hset]
      rw [show ({A, B, C} : Finset SubdivisionResponse) = insert A (insert B {C}) from rfl]
      rw [Finset.card_insert_of_not_mem (by simp [hAB, hAC]),
        Finset.card_insert_of_not_mem (by simp [hBC]), Finset.card_singleton]

/-- Witness for C3 at concrete subdivisions. -/
theorem C3_explicit_union_accumulates_witness :
    ((fun _ => none : CoverageMap) CountryCode.GERMANY).getD (CoverageEntry.subs ∅) =
      CoverageEntry.subs ∅ ∧
    (∃ m₁ m₂, add_country_code (fun _ => none) CountryCode.GERMANY
        (some {⟨"A"⟩, ⟨"B"⟩}) false = Except.ok m₁ ∧
      add_country_code m₁ CountryCode.GERMANY (some {⟨"B"⟩, ⟨"C"⟩}) false = Except.ok m₂ ∧
      m₂ CountryCode.GERMANY = some (CoverageEntry.subs {⟨"A"⟩, ⟨"B"⟩, ⟨"C"⟩}) ∧
      get_count_for_country m₂ CountryCode.GERMANY 3 = 3) :=
  ⟨by decide,
    (C3_explicit_union_accumulates (fun _ => none) CountryCode.GERMANY ∅ ∅
      ⟨"A"⟩ ⟨"B"⟩ ⟨"C"⟩ (by decide) (by decide) (by decide) (by decide)).2.2
      (fun _ => none) rfl⟩

/-- C2 counterexample: for a country with zero registered regions whose entry
is the (explicit) empty set, the accumulated explicit region set equals all
zero registered regions, yet the percentage is 0 rather than the claimed 1. -/
theorem C2_counterexample_zero_regions :
    get_percentage_for_country
      (fun c => if c = CountryCode.GERMANY then some (CoverageEntry.subs ∅) else none)
      CountryCode.GERMANY 0 = 0 ∧
    (((fun c => if c = CountryCode.GERMANY then some (CoverageEntry.subs ∅) else none) :
        CoverageMap) CountryCode.GERMANY).getD (CoverageEntry.subs ∅) =
      CoverageEntry.subs (∅ : Finset SubdivisionResponse) ∧
    ¬ get_percentage_for_country
      (fun c => if c = CountryCode.GERMANY then some (CoverageEntry.subs ∅) else none)
      CountryCode.GERMANY 0 = 1 := by
  have hc : get_count_for_country
      (fun c => if c = CountryCode.GERMANY then some (CoverageEntry.subs ∅) else none)
      CountryCode.GERMANY 0 = 0 := by decide
  refine ⟨?_, by decide, ?_⟩
  · unfold get_percentage_for_country
    rw [hc]
    norm_num
  · unfold get_percentage_for_country
    rw [hc]
    norm_num

/-- C2 (amended): when every explicit contribution is a registered subdivision
(`S ⊆ R`, with `n = |R|` the registered-region count), the percentage is in
[0, 1] with `max(n, 1)` the denominator, and equals 1 exactly when the entry is
nationwide, or the explicit set equals all registered regions and `n ≥ 1`. -/
theorem C2_percentage_range_and_total (country_codes : CoverageMap) (cc : CountryCode)
    (R : Finset SubdivisionResponse)
    (hsub : ∀ S, (country_codes cc).getD (CoverageEntry.subs ∅) = CoverageEntry.subs S →
      S ⊆ R) :
    0 ≤ get_percentage_for_country country_codes cc R.card ∧
    get_percentage_for_country country_codes cc R.card ≤ 1 ∧
    (get_percentage_for_country country_codes cc R.card = 1 ↔
      (country_codes cc).getD (CoverageEntry.subs ∅) = CoverageEntry.nationwide ∨
      ((country_codes cc).getD (CoverageEntry.subs ∅) = CoverageEntry.subs R ∧
        0 < R.card)) := by
  cases hE : (country_codes cc).getD (CoverageEntry.subs ∅) with
  | nationwide =>
    have hc : get_count_for_country country_codes cc R.card =
        if R.card = 0 then 1 else R.card := by
      unfold get_count_for_country
      rw [hE]
    unfold get_percentage_for_country
    rw [hc]
    by_cases hn : R.card = 0
    · rw [if_pos hn, if_pos hn]
      norm_num
    · have hpos : (0 : ℚ) < (R.card : ℚ) := by
        exact_mod_cast Nat.pos_of_ne_zero hn
      rw [if_neg hn, if_neg hn]
      rw [div_self (ne_of_gt hpos)]
      simp
  | subs S =>
    have hS := hsub S hE
    have hcard : S.card ≤ R.card := Finset.card_le_card hS
    have hc : get_count_for_country country_codes cc R.card = S.card := by
      unfold get_count_for_country
      rw [hE]
    unfold get_percentage_for_country
    rw [hc]
    by_cases hn : R.card = 0
    · have hS0 : S.card = 0 := by omega
      rw [if_pos hn, hS0]
      norm_num
      exact ⟨by simp, fun _ => Finset.card_eq_zero.mp hn⟩
    · have hpos : (0 : ℚ) < (R.card : ℚ) := by
        exact_mod_cast Nat.pos_of_ne_zero hn
      rw [if_neg hn]
      refine ⟨div_nonneg (by positivity) (le_of_lt hpos), ?_, ?_⟩
      · rw [div_le_one hpos]
        exact_mod_cast hcard
      · rw [div_eq_one_iff_eq (ne_of_gt hpos)]
        constructor
        · intro h
          have hScard : S.card = R.card := by exact_mod_cast h
          refine Or.inr ⟨?_, by omega⟩
          rw [Finset.eq_of_subset_of_card_le hS (le_of_eq hScard.symm)]
        · rintro (h | ⟨h, _⟩)
          · exact absurd h (by simp)
          · have hSR : S = R := by
              injection h
            rw [hSR]

/-- Witness for C2's amended theorem on a nationwide entry with one registered
region. -/
theorem C2_percentage_range_and_total_witness :
    (∀ S : Finset SubdivisionResponse,
      (((fun c => if c = CountryCode.GERMANY then some CoverageEntry.nationwide else none) :
          CoverageMap) CountryCode.GERMANY).getD (CoverageEntry.subs ∅) =
        CoverageEntry.subs S →
      S ⊆ {⟨"BY"⟩}) ∧
    (0 ≤ get_percentage_for_country
        (fun c => if c = CountryCode.GERMANY then some CoverageEntry.nationwide else none)
        CountryCode.GERMANY ({⟨"BY"⟩} : Finset SubdivisionResponse).card ∧
      get_percentage_for_country
        (fun c => if c = CountryCode.GERMANY then some CoverageEntry.nationwide else none)
        CountryCode.GERMANY ({⟨"BY"⟩} : Finset SubdivisionResponse).card ≤ 1 ∧
      (get_percentage_for_country
        (fun c => if c = CountryCode.GERMANY then some CoverageEntry.nationwide else none)
        CountryCode.GERMANY ({⟨"BY"⟩} : Finset SubdivisionResponse).card = 1 ↔
        (((fun c => if c = CountryCode.GERMANY then some CoverageEntry.nationwide else none) :
            CoverageMap) CountryCode.GERMANY).getD (CoverageEntry.subs ∅) =
          CoverageEntry.nationwide ∨
        ((((fun c => if c = CountryCode.GERMANY then some CoverageEntry.nationwide else none) :
            CoverageMap) CountryCode.GERMANY).getD (CoverageEntry.subs ∅) =
          CoverageEntry.subs {⟨"BY"⟩} ∧
          0 < ({⟨"BY"⟩} : Finset SubdivisionResponse).card))) :=
  ⟨fun S h => CoverageEntry.noConfusion h,
    C2_percentage_range_and_total
      (fun c => if c = CountryCode.GERMANY then some CoverageEntry.nationwide else none)
      CountryCode.GERMANY {⟨"BY"⟩}
      (fun S h => CoverageEntry.noConfusion h)⟩

/-! ### HolidayYear._parse_holiday_response (aggregation of one interval) -/

/-- `holidayexcel.enums.HolidayType`. -/
inductive EnumHolidayType
  | PUBLIC
  | SCHOOL
deriving DecidableEq

/-- Modelled from the spec: the openholidaysapi `HolidayType` members consumed
by `_parse_holiday_response` (the module is missing from the sources). -/
inductive ApiHolidayType
  | SCHOOL
  | BACK_TO_SCHOOL
  | END_OF_LESSONS
  | BANK
  | PUBLIC
deriving DecidableEq

/-- Modelled from the spec: a `HolidayResponse` record of the missing
openholidaysapi module, as consumed by `_parse_holiday_response`: an inclusive
date interval, a nationwide flag, subdivision references (by code), and the
holiday type. -/
structure HolidayResponse where
  start_date : Date
  end_date : Date
  nationwide : Bool
  subdivisions : List String
  type : ApiHolidayType

/-- The mutable content of one `HolidayDate` (its date is the `_dates` key). -/
structure HolidayDateState where
  country_codes : CoverageMap
  holiday_type : String → Finset EnumHolidayType

/-- `HolidayDate.add_holiday_type`: adds the type into the per-subdivision set
(`defaultdict(set)`). -/
def add_holiday_type (holiday_type : String → Finset EnumHolidayType)
    (subdivision_code : String) (t : EnumHolidayType) :
    String → Finset EnumHolidayType :=
  Function.update holiday_type subdivision_code (insert t (holiday_type subdivision_code))

/-- The per-date body of the loop in `HolidayYear._parse_holiday_response`:
resolve subdivision references through the registry (`None` when the response
has no subdivisions), add the coverage contribution
(`nation_wide = holiday_response.nationwide or None`), then tag holiday types.
An ambiguous descriptor raises before any mutation of this date. -/
def parse_date_step (registry : String → SubdivisionResponse) (cc : CountryCode)
    (hr : HolidayResponse) (dates : Date → HolidayDateState) (date : Date) :
    Except String (Date → HolidayDateState) := do
  let subdivisions : Option (Finset SubdivisionResponse) :=
    if hr.subdivisions.isEmpty then none
    else some (hr.subdivisions.map registry).toFinset
  let cmap ← add_country_code (dates date).country_codes cc subdivisions hr.nationwide
  let ht1 :=
    if hr.type = ApiHolidayType.SCHOOL ∨ hr.type = ApiHolidayType.BACK_TO_SCHOOL ∨
        hr.type = ApiHolidayType.END_OF_LESSONS then
      hr.subdivisions.foldl
        (fun h code => add_holiday_type h code EnumHolidayType.SCHOOL)
        (dates date).holiday_type
    else (dates date).holiday_type
  let ht2 :=
    if hr.type = ApiHolidayType.BANK ∨ hr.type = ApiHolidayType.PUBLIC then
      hr.subdivisions.foldl
        (fun h code => add_holiday_type h code EnumHolidayType.PUBLIC) ht1
    else ht1
  pure (Function.update dates date ⟨cmap, ht2⟩)

/-- `HolidayYear._parse_holiday_response`: expand the response's interval with
`date_range(..., limit_to_year=year)` and apply the per-date update to each
yielded date. -/
def parse_holiday_response (registry : String → SubdivisionResponse)
    (dates : Date → HolidayDateState) (year : Nat) (cc : CountryCode)
    (hr : HolidayResponse) : Except String (Date → HolidayDateState) :=
  (date_range hr.start_date hr.end_date (some year)).foldlM
    (parse_date_step registry cc hr) dates

/-- C4 counterexample: a nationwide interval lying entirely in year 1 is not
skipped when aggregated for year 2 — the clamped range is the nonempty
`[Jan 1, year 2]`, and aggregation marks that date nationwide (it was absent,
so its per-date coverage entry does change). -/
theorem C4_counterexample_outside_interval_not_skipped :
    date_range ⟨1, 3, 1⟩ ⟨1, 3, 5⟩ (some 2) ≠ [] ∧
    (parse_holiday_response (fun c => ⟨c⟩)
        (fun _ => ⟨fun _ => none, fun _ => ∅⟩) 2 CountryCode.GERMANY
        ⟨⟨1, 3, 1⟩, ⟨1, 3, 5⟩, true, [], ApiHolidayType.PUBLIC⟩).toOption.map
      (fun d => (d ⟨2, 1, 1⟩).country_codes CountryCode.GERMANY) =
      some (some CoverageEntry.nationwide) := by
  constructor
  · decide
  · decide

theorem jan1_valid {y : Nat} (hy : 1 ≤ y) : (⟨y, 1, 1⟩ : Date).valid :=
  ⟨hy, by norm_num, by norm_num, by norm_num, by norm_num [days_in_month]⟩

theorem dec31_valid {y : Nat} (hy : 1 ≤ y) : (⟨y, 12, 31⟩ : Date).valid :=
  ⟨hy, by norm_num, by norm_num, by norm_num, by norm_num [days_in_month]⟩

/-- C4 (amended): for an interval with start ≤ end whose dates all lie outside
the target year, aggregation is not a skip: the clamped range collapses to the
single boundary day (Jan 1 of the year when the interval lies before it, Dec 31
when after), and aggregating the interval applies exactly the one per-date
update at that boundary date. -/
theorem C4_outside_interval_clamps_to_boundary (registry : String → SubdivisionResponse)
    (dates : Date → HolidayDateState) (y : Nat) (cc : CountryCode) (hr : HolidayResponse)
    (hy : 1 ≤ y) (hse : Date.le hr.start_date hr.end_date)
    (hout : Date.lt hr.end_date ⟨y, 1, 1⟩ ∨ Date.lt ⟨y, 12, 31⟩ hr.start_date) :
    date_range hr.start_date hr.end_date (some y) =
      [if Date.lt hr.end_date ⟨y, 1, 1⟩ then (⟨y, 1, 1⟩ : Date) else ⟨y, 12, 31⟩] ∧
    parse_holiday_response registry dates y cc hr =
      parse_date_step registry cc hr dates
        (if Date.lt hr.end_date ⟨y, 1, 1⟩ then (⟨y, 1, 1⟩ : Date) else ⟨y, 12, 31⟩) := by
  have hjd := jan1_le_dec31 y
  have hb : ∀ b : Date, b.valid →
      truncate_to_year hr.start_date y = b → truncate_to_year hr.end_date y = b →
      date_range hr.start_date hr.end_date (some y) = [b] := by
    intro b hbv hs he
    show (List.range ((((truncate_to_year hr.end_date y).toordinal : Int) -
        ((truncate_to_year hr.start_date y).toordinal : Int)) + 1).toNat).map
      (fun number => (truncate_to_year hr.start_date y).addDays number) = [b]
    rw [hs, he]
    have hcnt : (((b.toordinal : Int) - (b.toordinal : Int)) + 1).toNat = 1 := by omega
    rw [hcnt]
    show [b.addDays 0] = [b]
    rw [Date.addDays_zero hbv]
  have hdr : date_range hr.start_date hr.end_date (some y) =
      [if Date.lt hr.end_date ⟨y, 1, 1⟩ then (⟨y, 1, 1⟩ : Date) else ⟨y, 12, 31⟩] := by
    rcases hout with hlt | hgt
    · rw [if_pos hlt]
      have hslt : Date.lt hr.start_date ⟨y, 1, 1⟩ := by
        unfold Date.lt at *
        unfold Date.le at hse
        omega
      exact hb _ (jan1_valid hy) (truncate_of_before hslt) (truncate_of_before hlt)
    · have hne : ¬ Date.lt hr.end_date ⟨y, 1, 1⟩ := by
        unfold Date.lt at *
        unfold Date.le at hse
        omega
      rw [if_neg hne]
      have helt : Date.lt ⟨y, 12, 31⟩ hr.end_date := by
        unfold Date.lt at *
        unfold Date.le at hse
        omega
      exact hb _ (dec31_valid hy) (truncate_of_after hgt) (truncate_of_after helt)
  refine ⟨hdr, ?_⟩
  unfold parse_holiday_response
  rw [hdr, List.foldlM_cons]
  simp [List.foldlM_nil]

/-- Witness for C4's amended theorem: a two-day interval in year 1 aggregated
for year 2 collapses to Jan 1 of year 2. -/
theorem C4_outside_interval_clamps_to_boundary_witness :
    ((1 : Nat) ≤ 2 ∧ Date.le ⟨1, 5, 1⟩ ⟨1, 5, 2⟩ ∧
      (Date.lt ⟨1, 5, 2⟩ ⟨2, 1, 1⟩ ∨ Date.lt ⟨2, 12, 31⟩ ⟨1, 5, 1⟩)) ∧
    (date_range (⟨1, 5, 1⟩ : Date) ⟨1, 5, 2⟩ (some 2) =
      [if Date.lt ⟨1, 5, 2⟩ ⟨2, 1, 1⟩ then (⟨2, 1, 1⟩ : Date) else ⟨2, 12, 31⟩] ∧
    parse_holiday_response (fun c => ⟨c⟩) (fun _ => ⟨fun _ => none, fun _ => ∅⟩) 2
        CountryCode.GERMANY ⟨⟨1, 5, 1⟩, ⟨1, 5, 2⟩, true, [], ApiHolidayType.PUBLIC⟩ =
      parse_date_step (fun c => ⟨c⟩) CountryCode.GERMANY
        ⟨⟨1, 5, 1⟩, ⟨1, 5, 2⟩, true, [], ApiHolidayType.PUBLIC⟩
        (fun _ => ⟨fun _ => none, fun _ => ∅⟩)
        (if Date.lt ⟨1, 5, 2⟩ ⟨2, 1, 1⟩ then (⟨2, 1, 1⟩ : Date) else ⟨2, 12, 31⟩)) :=
  ⟨⟨by norm_num, by decide, Or.inl (by decide)⟩,
    C4_outside_interval_clamps_to_boundary (fun c => ⟨c⟩)
      (fun _ => ⟨fun _ => none, fun _ => ∅⟩) 2 CountryCode.GERMANY
      ⟨⟨1, 5, 1⟩, ⟨1, 5, 2⟩, true, [], ApiHolidayType.PUBLIC⟩
      (by norm_num) (by decide) (Or.inl (by decide))⟩

/-! ### ISO weeks (model of the isoweek package / `date.isocalendar`) -/

/-- Modelled from the spec: the Monday ordinal of ISO week 1 of `year` — the
Monday of the week containing Jan 4, per the ISO-8601 rule (week 1 contains
the year's first Thursday) used by the isoweek package. -/
def week1_monday_ord (year : Nat) : Nat :=
  Date.toordinal ⟨year, 1, 4⟩ - (Date.toordinal ⟨year, 1, 4⟩ - 1) % 7

/-- Modelled from the spec: the number of ISO weeks of `year` (52 or 53). -/
def iso_weeks_in_year (year : Nat) : Nat :=
  (week1_monday_ord (year + 1) - week1_monday_ord year) / 7

/-- Modelled from the spec: an `isoweek.Week` value (ISO year and week index). -/
structure Week where
  year : Nat
  week : Nat
deriving DecidableEq

/-- Ordinal of the week's Monday. -/
def Week.monday_ord (w : Week) : Nat := week1_monday_ord w.year + 7 * (w.week - 1)

/-- `Week.monday()`. -/
def Week.monday (w : Week) : Date := Date.fromordinal w.monday_ord

/-- `Week.sunday()`. -/
def Week.sunday (w : Week) : Date := Date.fromordinal (w.monday_ord + 6)

/-- Modelled from the spec: `Week.weeks_of_year(y)` of the isoweek package —
weeks 1 .. (52 or 53) of ISO year `y`. -/
def weeks_of_year (y : Nat) : List Week :=
  (List.range (iso_weeks_in_year y)).map (fun i => ⟨y, i + 1⟩)

/-- Python's `date.isocalendar().week`, via the week-1-Monday characterisation. -/
def Date.isoweek (d : Date) : Nat :=
  if d.toordinal < week1_monday_ord d.year then
    (d.toordinal - week1_monday_ord (d.year - 1)) / 7 + 1
  else if week1_monday_ord (d.year + 1) ≤ d.toordinal then 1
  else (d.toordinal - week1_monday_ord d.year) / 7 + 1

/-! ### YearCalendar (excel/yearcalendar.py): accumulate-then-commit styling -/

/-- Modelled from the spec: the `BATLOW_S_HEX` palette of the missing colors
module — three distinct hex colours for school holidays, public holidays and
weekends. -/
def BATLOW_S_HEX : List String := ["#011959", "#205E61", "#FDB7BC"]

def SCHOOL_HOLIDAY_COLOR : String := BATLOW_S_HEX.getD 0 ""

def PUBLIC_HOLIDAY_COLOR : String := BATLOW_S_HEX.getD 1 ""

def WEEKEND_COLOR : String := BATLOW_S_HEX.getD 2 ""

/-- Modelled from the spec: `get_gray_scale_color` of the missing colors
module — a monotone map from [0,1] onto a fixed palette of shades, lightest at
0 and darkest at 1. -/
def GRAY_SCALE_HEX : List String := ["#FFFFFF", "#BFBFBF", "#7F7F7F", "#3F3F3F", "#000000"]

def get_gray_scale_color (percentage : ℚ) : String :=
  GRAY_SCALE_HEX.getD (Int.toNat ⌊percentage * 4⌋) "#000000"

/-- A value of an xlsxwriter format dict (`str | int` in the source). -/
inductive FmtVal
  | s (v : String)
  | i (v : Int)
deriving DecidableEq

/-- A Python dict of format parameters, as an insertion-ordered association
list; on lookup the most recent binding wins (assignment/update semantics). -/
abbrev FmtMap := List (String × FmtVal)

/-- Dict lookup: the most recently written binding of the key. -/
def dget (m : FmtMap) (k : String) : Option FmtVal := m.reverse.lookup k

/-- Dict assignment `m[k] = v`. -/
def dset (m : FmtMap) (k : String) (v : FmtVal) : FmtMap := m ++ [(k, v)]

/-- Python's `dict.update(p)` on format dicts: every binding of `p` overrides
the corresponding binding of `m`; other keys of `m` are untouched. -/
def dictUpdate (m p : FmtMap) : FmtMap := m ++ p

/-- `_CellContainer` of excel/yearcalendar.py. -/
structure CellContainer where
  format : FmtMap
  content : String
deriving DecidableEq

/-- `_DayContainer` of excel/yearcalendar.py. -/
structure DayContainer where
  day_number : CellContainer
  week_number : CellContainer
  field : CellContainer
deriving DecidableEq

def emptyCellContainer : CellContainer := ⟨[], ""⟩

/-- The `defaultdict(_DayContainer)` default. -/
def emptyDayContainer : DayContainer :=
  ⟨emptyCellContainer, emptyCellContainer, emptyCellContainer⟩

/-- The per-date body of `YearCalendar.write_day_numbers`: builds
`format_params` (bottom border on Sundays / month ends, top border on
Saturdays / month firsts, weekend fill), then updates the day-number cell
(right border), the week-number cell (left border, no right border; ISO week
content on Mondays and month firsts), and the field cell (both borders). -/
def write_day_numbers_date (year : Nat) (date : Date) (dc : DayContainer) : DayContainer :=
  let number_days := days_in_month (isleap year) date.month
  let wd := date.weekday
  let fp0 : FmtMap := []
  let fp1 := if wd = 6 ∨ date.day = number_days then dset fp0 "bottom" (FmtVal.i 1) else fp0
  let fp2 := if wd = 5 ∨ date.day = 1 then dset fp1 "top" (FmtVal.i 1) else fp1
  let fp3 := if wd = 5 ∨ wd = 6 then dset fp2 "fg_color" (FmtVal.s WEEKEND_COLOR) else fp2
  let fpDay := dset fp3 "right" (FmtVal.i 1)
  let fpWeek := dset (dset fpDay "left" (FmtVal.i 1)) "right" (FmtVal.i 0)
  let fpField := dset (dset fpWeek "left" (FmtVal.i 1)) "right" (FmtVal.i 1)
  { day_number := ⟨dictUpdate dc.day_number.format fpDay, toString date.day⟩
    week_number := ⟨dictUpdate dc.week_number.format fpWeek,
      if wd = 0 ∨ date.day = 1 then toString date.isoweek else dc.week_number.content⟩
    field := ⟨dictUpdate dc.field.format fpField, ""⟩ }

/-- The dates of month `m` of `year` (the inner loop of `write_day_numbers`). -/
def month_dates (year m : Nat) : List Date :=
  date_range ⟨year, m, 1⟩ ⟨year, m, days_in_month (isleap year) m⟩ none

/-- `YearCalendar.write_day_numbers`: for every month and every date of that
month, update the date's `_day_containers` entry (the `set_column` sink calls
do not touch the containers and are omitted from the container state). -/
def write_day_numbers (year : Nat) (st : Date → DayContainer) : Date → DayContainer :=
  ((List.range 12).flatMap (fun i => month_dates year (i + 1))).foldl
    (fun s date => Function.update s date (write_day_numbers_date year date (s date))) st

/-- `YearCalendar.write_holiday_date`: iterate the date's country codes (the
dict's key list `codes`); skip codes that are neither Germany nor the foreign
country; update the Germany cell (day_number) or the foreign cell (week_number)
with the gray-scale fill and font colour; nationwide German coverage also
fills the field cell with the public-holiday colour. `cov` is the date's
coverage map, `nsubs` the registered-subdivision count per country. -/
def write_holiday_date_step (cov : CoverageMap) (nsubs : CountryCode → Nat)
    (foreign_country_code : Option CountryCode) (date : Date)
    (s : Date → DayContainer) (country_code : CountryCode) : Date → DayContainer :=
  if country_code ≠ CountryCode.GERMANY ∧ some country_code ≠ foreign_country_code then s
  else
    let percentage := get_percentage_for_country cov country_code (nsubs country_code)
    let gray_scale := get_gray_scale_color percentage
    let font_color := if percentage < (1 / 2 : ℚ) then "#000000" else "#FFFFFF"
    let dc := s date
    let dc1 :=
      if country_code = CountryCode.GERMANY then
        { dc with day_number := ⟨dictUpdate dc.day_number.format
            [("fg_color", FmtVal.s gray_scale), ("font_color", FmtVal.s font_color)],
          dc.day_number.content⟩ }
      else
        { dc with week_number := ⟨dictUpdate dc.week_number.format
            [("fg_color", FmtVal.s gray_scale), ("font_color", FmtVal.s font_color)],
          dc.week_number.content⟩ }
    let dc2 :=
      if country_code = CountryCode.GERMANY ∧ cov country_code = some CoverageEntry.nationwide
      then { dc1 with field := ⟨dictUpdate dc1.field.format
          [("fg_color", FmtVal.s PUBLIC_HOLIDAY_COLOR)], dc1.field.content⟩ }
      else dc1
    Function.update s date dc2

def write_holiday_date (cov : CoverageMap) (nsubs : CountryCode → Nat)
    (foreign_country_code : Option CountryCode) (date : Date)
    (codes : List CountryCode) (st : Date → DayContainer) : Date → DayContainer :=
  codes.foldl (write_holiday_date_step cov nsubs foreign_country_code date) st

/-- An emitted write to the tabular output sink. -/
inductive SinkOp
  | write (row : Int) (col : Int) (data : String) (format : FmtMap)
  | mergeRange (first_row last_row first_col last_col : Int) (data : String) (format : FmtMap)
deriving DecidableEq

/-- `YearCalendar._get_month_column_offset`. -/
def month_column_offset (month : Nat) : Nat := 3 * (month - 1)

/-- `YearCalendar._get_month_row_offset`: `max(_RowNumbers) + 1 + (weekday of
the month's first day - 1)` (computed in ℤ as Python does). -/
def month_row_offset (year month : Nat) : Int :=
  1 + 1 + ((Date.weekday ⟨year, month, 1⟩ : Int) - 1)

/-- The commit pass of `YearCalendar.write_year`: one write per container per
date of the year, at the month-grid coordinates, carrying the accumulated
content and format of that container. -/
def year_calendar_commit (year : Nat) (st : Date → DayContainer) : List SinkOp :=
  (year_range year).flatMap (fun date =>
    [SinkOp.write (month_row_offset year date.month + date.day)
        (month_column_offset date.month) (st date).week_number.content
        (st date).week_number.format,
      SinkOp.write (month_row_offset year date.month + date.day)
        (month_column_offset date.month + 1) (st date).day_number.content
        (st date).day_number.format,
      SinkOp.write (month_row_offset year date.month + date.day)
        (month_column_offset date.month + 2) (st date).field.content
        (st date).field.format])

/-! ### Dict and fold lemmas for the accumulate-then-commit claims -/

theorem lookup_append_or (l1 l2 : List (String × FmtVal)) (k : String) :
    (l1 ++ l2).lookup k = ((l1.lookup k).or (l2.lookup k)) := by
  induction l1 with
  | nil => simp
  | cons a t ih =>
    rcases a with ⟨k', v⟩
    simp only [List.cons_append, List.lookup]
    by_cases hk : k = k'
    · subst hk
      simp
    · have hb : (k == k') = false := by
        simp [hk]
      rw [hb]
      exact ih

theorem dget_append (m p : FmtMap) (k : String) :
    dget (m ++ p) k = ((dget p k).or (dget m k)) := by
  unfold dget
  rw [List.reverse_append]
  exact lookup_append_or _ _ _

theorem dget_dictUpdate (m p : FmtMap) (k : String) :
    dget (dictUpdate m p) k = ((dget p k).or (dget m k)) := dget_append m p k

theorem dget_singleton_same (k : String) (v : FmtVal) :
    dget [(k, v)] k = some v := by
  simp [dget, List.lookup]

theorem dget_singleton_ne {k k' : String} (h : k ≠ k') (v : FmtVal) :
    dget [(k', v)] k = none := by
  have hb : (k == k') = false := by simp [h]
  simp [dget, List.lookup, hb]

theorem dget_dset_same (m : FmtMap) (k : String) (v : FmtVal) :
    dget (dset m k v) k = some v := by
  unfold dset
  rw [dget_append, dget_singleton_same]
  rfl

theorem dget_dset_ne (m : FmtMap) {k k' : String} (h : k ≠ k') (v : FmtVal) :
    dget (dset m k' v) k = dget m k := by
  unfold dset
  rw [dget_append, dget_singleton_ne h]
  simp

theorem dget_pair_ne {m : FmtMap} {k k1 k2 : String} (h1 : k ≠ k1) (h2 : k ≠ k2)
    (v1 v2 : FmtVal) : dget (dictUpdate m [(k1, v1), (k2, v2)]) k = dget m k := by
  have : ([(k1, v1), (k2, v2)] : FmtMap) = [(k1, v1)] ++ [(k2, v2)] := rfl
  unfold dictUpdate
  rw [this, ← List.append_assoc, dget_append, dget_append, dget_singleton_ne h2,
    dget_singleton_ne h1]
  simp

theorem dget_pair_fst {m : FmtMap} {k1 k2 : String} (h : k1 ≠ k2) (v1 v2 : FmtVal) :
    dget (dictUpdate m [(k1, v1), (k2, v2)]) k1 = some v1 := by
  have : ([(k1, v1), (k2, v2)] : FmtMap) = [(k1, v1)] ++ [(k2, v2)] := rfl
  unfold dictUpdate
  rw [this, ← List.append_assoc, dget_append, dget_singleton_ne h, dget_append,
    dget_singleton_same]
  rfl

theorem dget_pair_snd {m : FmtMap} {k1 k2 : String} (v1 v2 : FmtVal) :
    dget (dictUpdate m [(k1, v1), (k2, v2)]) k2 = some v2 := by
  have : ([(k1, v1), (k2, v2)] : FmtMap) = [(k1, v1)] ++ [(k2, v2)] := rfl
  unfold dictUpdate
  rw [this, ← List.append_assoc, dget_append, dget_singleton_same]
  rfl

theorem foldl_update_apply {α β : Type} [DecidableEq α] (f : α → β → β) :
    ∀ (L : List α) (st : α → β) (d : α), L.Nodup →
      (L.foldl (fun s x => Function.update s x (f x (s x))) st) d =
        if d ∈ L then f d (st d) else st d := by
  intro L
  induction L with
  | nil =>
    intro st d _
    simp
  | cons a t ih =>
    intro st d hnd
    have hna : a ∉ t := (List.nodup_cons.mp hnd).1
    have hnd' : t.Nodup := (List.nodup_cons.mp hnd).2
    rw [List.foldl_cons, ih _ _ hnd']
    by_cases hda : d = a
    · subst hda
      rw [if_neg (fun hmem => hna hmem), Function.update_same, if_pos (List.mem_cons_self d t)]
    · rw [Function.update_noteq hda]
      by_cases hdt : d ∈ t
      · rw [if_pos hdt, if_pos (List.mem_cons_of_mem a hdt)]
      · rw [if_neg hdt, if_neg (by simp [hda, hdt])]

/-! ### Membership of the year's date lists -/

theorem days_in_month_pos (leap : Bool) {m : Nat} (h1 : 1 ≤ m) (h2 : m ≤ 12) :
    1 ≤ days_in_month leap m := by
  interval_cases m <;> cases leap <;> simp [days_in_month]

theorem month_first_valid {y m : Nat} (hy : 1 ≤ y) (h1 : 1 ≤ m) (h2 : m ≤ 12) :
    (⟨y, m, 1⟩ : Date).valid :=
  ⟨hy, h1, h2, le_refl 1, days_in_month_pos _ h1 h2⟩

theorem mem_date_range_of {s e d : Date} (hs : s.valid) (hd : d.valid)
    (h1 : s.toordinal ≤ d.toordinal) (h2 : d.toordinal ≤ e.toordinal) :
    d ∈ date_range s e none := by
  show d ∈ (List.range (((e.toordinal : Int) - (s.toordinal : Int)) + 1).toNat).map
    (fun number => s.addDays number)
  rw [List.mem_map]
  refine ⟨d.toordinal - s.toordinal, ?_, ?_⟩
  · rw [List.mem_range]
    omega
  · unfold Date.addDays
    have heq : s.toordinal + (d.toordinal - s.toordinal) = d.toordinal := by omega
    rw [heq]
    exact Date.fromordinal_toordinal hd

theorem month_dates_map_ord {y m : Nat} (hy : 1 ≤ y) (h1 : 1 ≤ m) (h2 : m ≤ 12) :
    (month_dates y m).map Date.toordinal =
      List.range' (Date.toordinal ⟨y, m, 1⟩) (days_in_month (isleap y) m) := by
  have hv := month_first_valid hy h1 h2
  have hpos := days_in_month_pos (isleap y) h1 h2
  have hord : Date.toordinal ⟨y, m, days_in_month (isleap y) m⟩ =
      Date.toordinal ⟨y, m, 1⟩ + (days_in_month (isleap y) m - 1) := by
    show days_before_year y + days_before_month (isleap y) m + days_in_month (isleap y) m =
      days_before_year y + days_before_month (isleap y) m + 1 +
        (days_in_month (isleap y) m - 1)
    omega
  have hcnt : ((((⟨y, m, days_in_month (isleap y) m⟩ : Date).toordinal : Int) -
      (((⟨y, m, 1⟩ : Date).toordinal : Int))) + 1).toNat = days_in_month (isleap y) m := by
    rw [hord]
    push_cast
    omega
  show ((List.range ((((⟨y, m, days_in_month (isleap y) m⟩ : Date).toordinal : Int) -
      (((⟨y, m, 1⟩ : Date).toordinal : Int))) + 1).toNat).map
    (fun number => (⟨y, m, 1⟩ : Date).addDays number)).map Date.toordinal = _
  rw [hcnt, List.map_map, List.range'_eq_map_range]
  apply List.map_congr_left
  intro n _
  show ((⟨y, m, 1⟩ : Date).addDays n).toordinal = (⟨y, m, 1⟩ : Date).toordinal + n
  exact Date.toordinal_addDays hv n

theorem year_days_map_ord {y : Nat} (hy : 1 ≤ y) : ∀ j, j ≤ 12 →
    ((List.range j).flatMap (fun i => month_dates y (i + 1))).map Date.toordinal =
      List.range' (Date.toordinal ⟨y, 1, 1⟩) (days_before_month (isleap y) (j + 1)) := by
  intro j
  induction j with
  | zero =>
    intro _
    rfl
  | succ n ih =>
    intro hj
    rw [List.range_succ, List.flatMap_append, List.map_append, ih (by omega)]
    simp only [List.flatMap_cons, List.flatMap_nil, List.append_nil]
    rw [month_dates_map_ord hy (by omega) (by omega)]
    have hstart : Date.toordinal ⟨y, n + 1, 1⟩ =
        Date.toordinal ⟨y, 1, 1⟩ + days_before_month (isleap y) (n + 1) := by
      show days_before_year y + days_before_month (isleap y) (n + 1) + 1 =
        days_before_year y + days_before_month (isleap y) 1 + 1 +
          days_before_month (isleap y) (n + 1)
      have h0 : days_before_month (isleap y) 1 = 0 := rfl
      omega
    rw [hstart]
    have happ := List.range'_append (Date.toordinal ⟨y, 1, 1⟩)
      (days_before_month (isleap y) (n + 1)) (days_in_month (isleap y) (n + 1)) 1
    simp only [one_mul, List.range'_one] at happ
    have hsum : days_in_month (isleap y) (n + 1) + days_before_month (isleap y) (n + 1) =
        days_before_month (isleap y) (n + 1 + 1) := by
      rw [days_before_month_succ (isleap y) (n + 1)]
      omega
    rw [← hsum]
    exact happ

theorem year_days_nodup {y : Nat} (hy : 1 ≤ y) :
    ((List.range 12).flatMap (fun i => month_dates y (i + 1))).Nodup := by
  have h := year_days_map_ord hy 12 (le_refl 12)
  refine List.Nodup.of_map Date.toordinal ?_
  rw [h]
  exact List.nodup_range' _ _

theorem mem_month_dates {y : Nat} {d : Date} (hv : d.valid) (hy : d.year = y) :
    d ∈ month_dates y d.month := by
  obtain ⟨h1, h2, h3, h4, h5⟩ := hv
  subst hy
  have hs : Date.toordinal ⟨d.year, d.month, 1⟩ =
      days_before_year d.year + days_before_month (isleap d.year) d.month + 1 := rfl
  have he : Date.toordinal ⟨d.year, d.month, days_in_month (isleap d.year) d.month⟩ =
      days_before_year d.year + days_before_month (isleap d.year) d.month +
        days_in_month (isleap d.year) d.month := rfl
  have hd : d.toordinal =
      days_before_year d.year + days_before_month (isleap d.year) d.month + d.day := rfl
  apply mem_date_range_of (month_first_valid h1 h2 h3) ⟨h1, h2, h3, h4, h5⟩
  · rw [hs, hd]
    omega
  · rw [he, hd]
    omega

theorem mem_year_days {y : Nat} {d : Date} (hv : d.valid) (hy : d.year = y) :
    d ∈ (List.range 12).flatMap (fun i => month_dates y (i + 1)) := by
  rw [List.mem_flatMap]
  refine ⟨d.month - 1, ?_, ?_⟩
  · rw [List.mem_range]
    have h2 := hv.2.1
    have h3 := hv.2.2.1
    omega
  · have heq : d.month - 1 + 1 = d.month := by
      have := hv.2.1
      omega
    rw [heq]
    exact mem_month_dates hv hy

theorem mem_year_range {y : Nat} {d : Date} (hv : d.valid) (hy : d.year = y) :
    d ∈ year_range y := by
  have h1 : 1 ≤ y := hy ▸ hv.1
  have hb := Date.toordinal_bounds hv
  have h13 : days_in_year y = days_before_month (isleap y) 12 + 31 := by
    have ha : days_in_year y = days_before_month (isleap y) 13 := by
      unfold days_in_year
      rw [days_before_month_thirteen]
    have hbb : days_before_month (isleap y) 13 =
        days_before_month (isleap y) 12 + days_in_month (isleap y) 12 := rfl
    have hc : days_in_month (isleap y) 12 = 31 := rfl
    omega
  unfold year_range
  apply mem_date_range_of (jan1_valid h1) hv
  · rw [jan1_toordinal]
    rw [hy] at hb
    omega
  · have hdec : Date.toordinal ⟨y, 12, 31⟩ =
        days_before_year y + days_before_month (isleap y) 12 + 31 := rfl
    rw [hdec]
    rw [hy] at hb
    omega

/-- The result of `write_day_numbers` at a date of the year is the per-date
body applied to the previous value (every date of the year is visited exactly
once). -/
theorem write_day_numbers_apply {year : Nat} (st : Date → DayContainer) {d : Date}
    (hv : d.valid) (hy : d.year = year) :
    write_day_numbers year st d = write_day_numbers_date year d (st d) := by
  have h1 : 1 ≤ year := hy ▸ hv.1
  unfold write_day_numbers
  rw [foldl_update_apply (write_day_numbers_date year) _ _ _ (year_days_nodup h1)]
  rw [if_pos (mem_year_days hv hy)]

/-! ### C7: frame and overwrite behaviour of the holiday pass -/

theorem write_holiday_date_step_other_date (cov : CoverageMap) (nsubs : CountryCode → Nat)
    (fcc : Option CountryCode) (date : Date) (s : Date → DayContainer) (cc : CountryCode)
    {d : Date} (hd : d ≠ date) :
    write_holiday_date_step cov nsubs fcc date s cc d = s d := by
  unfold write_holiday_date_step
  split
  · rfl
  · exact Function.update_noteq hd _ _

theorem write_holiday_date_step_frame (cov : CoverageMap) (nsubs : CountryCode → Nat)
    (fcc : Option CountryCode) (date : Date) (s : Date → DayContainer) (cc : CountryCode)
    {k : String} (hk1 : k ≠ "fg_color") (hk2 : k ≠ "font_color") :
    dget ((write_holiday_date_step cov nsubs fcc date s cc date).day_number.format) k =
      dget ((s date).day_number.format) k ∧
    dget ((write_holiday_date_step cov nsubs fcc date s cc date).week_number.format) k =
      dget ((s date).week_number.format) k ∧
    dget ((write_holiday_date_step cov nsubs fcc date s cc date).field.format) k =
      dget ((s date).field.format) k := by
  simp only [write_holiday_date_step]
  by_cases hskip : (cc ≠ CountryCode.GERMANY ∧ some cc ≠ fcc)
  · rw [if_pos hskip]
    exact ⟨rfl, rfl, rfl⟩
  · rw [if_neg hskip]
    by_cases hcc : cc = CountryCode.GERMANY
    · rw [if_pos hcc]
      by_cases hnw : cov cc = some CoverageEntry.nationwide
      · rw [if_pos ⟨hcc, hnw⟩, Function.update_same]
        dsimp only
        exact ⟨dget_pair_ne hk1 hk2 _ _, rfl, dget_dset_ne _ hk1 _⟩
      · rw [if_neg (fun h => hnw h.2), Function.update_same]
        dsimp only
        exact ⟨dget_pair_ne hk1 hk2 _ _, rfl, rfl⟩
    · rw [if_neg hcc, if_neg (fun h => hcc h.1), Function.update_same]
      dsimp only
      exact ⟨rfl, dget_pair_ne hk1 hk2 _ _, rfl⟩

theorem write_holiday_date_frame (cov : CoverageMap) (nsubs : CountryCode → Nat)
    (fcc : Option CountryCode) (date : Date) :
    ∀ (codes : List CountryCode) (st : Date → DayContainer) (d : Date) (k : String),
      k ≠ "fg_color" → k ≠ "font_color" →
      dget ((write_holiday_date cov nsubs fcc date codes st d).day_number.format) k =
        dget ((st d).day_number.format) k ∧
      dget ((write_holiday_date cov nsubs fcc date codes st d).week_number.format) k =
        dget ((st d).week_number.format) k ∧
      dget ((write_holiday_date cov nsubs fcc date codes st d).field.format) k =
        dget ((st d).field.format) k := by
  intro codes
  induction codes with
  | nil =>
    intro st d k _ _
    exact ⟨rfl, rfl, rfl⟩
  | cons c t ih =>
    intro st d k h1 h2
    have hfold : write_holiday_date cov nsubs fcc date (c :: t) st =
        write_holiday_date cov nsubs fcc date t
          (write_holiday_date_step cov nsubs fcc date st c) := by
      unfold write_holiday_date
      rw [List.foldl_cons]
    rw [hfold]
    obtain ⟨ia, ib, ic⟩ := ih (write_holiday_date_step cov nsubs fcc date st c) d k h1 h2
    by_cases hd : d = date
    · subst hd
      obtain ⟨fa, fb, fc⟩ := write_holiday_date_step_frame cov nsubs fcc d st c h1 h2
      exact ⟨ia.trans fa, ib.trans fb, ic.trans fc⟩
    · have ho := write_holiday_date_step_other_date cov nsubs fcc date st c hd
      rw [ho] at ia ib ic
      exact ⟨ia, ib, ic⟩

theorem write_holiday_date_step_day_number_ne (cov : CoverageMap)
    (nsubs : CountryCode → Nat) (fcc : Option CountryCode) (date : Date)
    (s : Date → DayContainer) {cc : CountryCode} (h : cc ≠ CountryCode.GERMANY) :
    (write_holiday_date_step cov nsubs fcc date s cc date).day_number =
      (s date).day_number := by
  simp only [write_holiday_date_step]
  by_cases hskip : (cc ≠ CountryCode.GERMANY ∧ some cc ≠ fcc)
  · rw [if_pos hskip]
  · rw [if_neg hskip, if_neg h, if_neg (fun hc => h hc.1), Function.update_same]

theorem write_holiday_date_no_germany (cov : CoverageMap) (nsubs : CountryCode → Nat)
    (fcc : Option CountryCode) (date : Date) :
    ∀ (codes : List CountryCode) (st : Date → DayContainer),
      CountryCode.GERMANY ∉ codes →
      (write_holiday_date cov nsubs fcc date codes st date).day_number =
        (st date).day_number := by
  intro codes
  induction codes with
  | nil => intro st _; rfl
  | cons c t ih =>
    intro st hng
    have hfold : write_holiday_date cov nsubs fcc date (c :: t) st =
        write_holiday_date cov nsubs fcc date t
          (write_holiday_date_step cov nsubs fcc date st c) := by
      unfold write_holiday_date
      rw [List.foldl_cons]
    rw [hfold]
    have hcne : c ≠ CountryCode.GERMANY := by
      intro hc
      exact hng (hc ▸ List.mem_cons_self c t)
    rw [ih _ (fun hm => hng (List.mem_cons_of_mem c hm))]
    exact write_holiday_date_step_day_number_ne cov nsubs fcc date st hcne

theorem write_holiday_date_step_germany (cov : CoverageMap) (nsubs : CountryCode → Nat)
    (fcc : Option CountryCode) (date : Date) (s : Date → DayContainer) :
    (write_holiday_date_step cov nsubs fcc date s CountryCode.GERMANY date).day_number =
      ⟨dictUpdate (s date).day_number.format
        [("fg_color", FmtVal.s (get_gray_scale_color (get_percentage_for_country cov
            CountryCode.GERMANY (nsubs CountryCode.GERMANY)))),
          ("font_color", FmtVal.s (if get_percentage_for_country cov CountryCode.GERMANY
              (nsubs CountryCode.GERMANY) < (1 / 2 : ℚ) then "#000000" else "#FFFFFF"))],
        (s date).day_number.content⟩ := by
  simp only [write_holiday_date_step]
  rw [if_neg (show ¬(CountryCode.GERMANY ≠ CountryCode.GERMANY ∧
    some CountryCode.GERMANY ≠ fcc) from fun hskip => hskip.1 rfl)]
  by_cases hnw : cov CountryCode.GERMANY = some CoverageEntry.nationwide
  · rw [if_pos (show True ∧ cov CountryCode.GERMANY = some CoverageEntry.nationwide from
        ⟨trivial, hnw⟩),
      if_pos (show True from trivial), Function.update_same]
  · rw [if_neg (show ¬(True ∧ cov CountryCode.GERMANY = some CoverageEntry.nationwide) from
        fun hc => hnw hc.2),
      if_pos (show True from trivial), Function.update_same]

theorem write_holiday_date_germany_fg (cov : CoverageMap) (nsubs : CountryCode → Nat)
    (fcc : Option CountryCode) (date : Date) :
    ∀ (codes : List CountryCode) (st : Date → DayContainer),
      codes.Nodup → CountryCode.GERMANY ∈ codes →
      dget ((write_holiday_date cov nsubs fcc date codes st date).day_number.format)
          "fg_color" =
        some (FmtVal.s (get_gray_scale_color (get_percentage_for_country cov
          CountryCode.GERMANY (nsubs CountryCode.GERMANY)))) ∧
      dget ((write_holiday_date cov nsubs fcc date codes st date).day_number.format)
          "font_color" =
        some (FmtVal.s (if get_percentage_for_country cov CountryCode.GERMANY
            (nsubs CountryCode.GERMANY) < (1 / 2 : ℚ) then "#000000" else "#FFFFFF")) := by
  intro codes
  induction codes with
  | nil =>
    intro st _ hmem
    exact absurd hmem (List.not_mem_nil _)
  | cons c t ih =>
    intro st hnd hmem
    have hfold : write_holiday_date cov nsubs fcc date (c :: t) st =
        write_holiday_date cov nsubs fcc date t
          (write_holiday_date_step cov nsubs fcc date st c) := by
      unfold write_holiday_date
      rw [List.foldl_cons]
    rw [hfold]
    by_cases hc : c = CountryCode.GERMANY
    · subst hc
      have hng : CountryCode.GERMANY ∉ t := (List.nodup_cons.mp hnd).1
      rw [write_holiday_date_no_germany cov nsubs fcc date t _ hng]
      rw [write_holiday_date_step_germany]
      constructor
      · exact dget_pair_fst (by decide) _ _
      · exact dget_pair_snd _ _
    · have hmem' : CountryCode.GERMANY ∈ t := by
        rcases List.mem_cons.mp hmem with h | h
        · exact absurd h.symm hc
        · exact h
      exact ih _ (List.nodup_cons.mp hnd).2 hmem'

/-- C7: in the accumulate-then-commit `YearCalendar`, for every cell, style
keys written by the day-numbers pass survive the later holiday pass unless the
later pass sets the same key: the holiday pass only overwrites `fg_color` /
`font_color` (and only `fg_color` of the field cell); an earlier border key
(e.g. `right` from the day-number pass) is still present with its value, the
holiday pass's own keys carry its values, and the commit writes the
accumulated cell format unchanged to the sink. -/
theorem C7_accumulate_then_commit (year : Nat) (st0 : Date → DayContainer)
    (cov : CoverageMap) (nsubs : CountryCode → Nat) (fcc : Option CountryCode)
    (hdate : Date) (codes : List CountryCode) (d : Date) (k : String)
    (hv : d.valid) (hy : d.year = year)
    (hk1 : k ≠ "fg_color") (hk2 : k ≠ "font_color") :
    (dget ((write_holiday_date cov nsubs fcc hdate codes
        (write_day_numbers year st0) d).day_number.format) k =
      dget ((write_day_numbers year st0 d).day_number.format) k ∧
     dget ((write_holiday_date cov nsubs fcc hdate codes
        (write_day_numbers year st0) d).week_number.format) k =
      dget ((write_day_numbers year st0 d).week_number.format) k ∧
     dget ((write_holiday_date cov nsubs fcc hdate codes
        (write_day_numbers year st0) d).field.format) k =
      dget ((write_day_numbers year st0 d).field.format) k) ∧
    dget ((write_day_numbers year st0 d).day_number.format) "right" = some (FmtVal.i 1) ∧
    dget ((write_holiday_date cov nsubs fcc hdate codes
        (write_day_numbers year st0) d).day_number.format) "right" = some (FmtVal.i 1) ∧
    (codes.Nodup → CountryCode.GERMANY ∈ codes →
      dget ((write_holiday_date cov nsubs fcc hdate codes
          (write_day_numbers year st0) hdate).day_number.format) "fg_color" =
        some (FmtVal.s (get_gray_scale_color (get_percentage_for_country cov
          CountryCode.GERMANY (nsubs CountryCode.GERMANY))))) ∧
    SinkOp.write (month_row_offset year d.month + d.day)
        (month_column_offset d.month + 1)
        (write_holiday_date cov nsubs fcc hdate codes (write_day_numbers year st0)
          d).day_number.content
        (write_holiday_date cov nsubs fcc hdate codes (write_day_numbers year st0)
          d).day_number.format ∈
      year_calendar_commit year
        (write_holiday_date cov nsubs fcc hdate codes (write_day_numbers year st0)) := by
  have hframe := write_holiday_date_frame cov nsubs fcc hdate codes
    (write_day_numbers year st0) d k hk1 hk2
  have hright : dget ((write_day_numbers year st0 d).day_number.format) "right" =
      some (FmtVal.i 1) := by
    rw [write_day_numbers_apply st0 hv hy]
    simp only [write_day_numbers_date]
    show dget (dictUpdate (st0 d).day_number.format (dset _ "right" (FmtVal.i 1))) "right"
      = some (FmtVal.i 1)
    rw [dget_dictUpdate, dget_dset_same]
    rfl
  have hframe_right := write_holiday_date_frame cov nsubs fcc hdate codes
    (write_day_numbers year st0) d "right" (by decide) (by decide)
  refine ⟨hframe, hright, ?_, ?_, ?_⟩
  · rw [hframe_right.1]
    exact hright
  · intro hnd hmem
    exact (write_holiday_date_germany_fg cov nsubs fcc hdate codes
      (write_day_numbers year st0) hnd hmem).1
  · unfold year_calendar_commit
    rw [List.mem_flatMap]
    refine ⟨d, mem_year_range hv hy, ?_⟩
    simp

/-- Witness for C7 on a concrete one-day setup in year 1. -/
theorem C7_accumulate_then_commit_witness :
    ((⟨1, 1, 1⟩ : Date).valid ∧ (⟨1, 1, 1⟩ : Date).year = 1 ∧
      ("bottom" : String) ≠ "fg_color" ∧ ("bottom" : String) ≠ "font_color") ∧
    dget ((write_day_numbers 1 (fun _ => emptyDayContainer) ⟨1, 1, 1⟩).day_number.format)
      "right" = some (FmtVal.i 1) ∧
    dget ((write_holiday_date
        (fun c => if c = CountryCode.GERMANY then some CoverageEntry.nationwide else none)
        (fun _ => 0) none ⟨1, 1, 1⟩ [CountryCode.GERMANY]
        (write_day_numbers 1 (fun _ => emptyDayContainer)) ⟨1, 1, 1⟩).day_number.format)
      "right" = some (FmtVal.i 1) :=
  ⟨⟨by decide, rfl, by decide, by decide⟩,
    (C7_accumulate_then_commit 1 (fun _ => emptyDayContainer)
      (fun c => if c = CountryCode.GERMANY then some CoverageEntry.nationwide else none)
      (fun _ => 0) none ⟨1, 1, 1⟩ [CountryCode.GERMANY] ⟨1, 1, 1⟩ "bottom"
      (by decide) rfl (by decide) (by decide)).2.1,
    (C7_accumulate_then_commit 1 (fun _ => emptyDayContainer)
      (fun c => if c = CountryCode.GERMANY then some CoverageEntry.nationwide else none)
      (fun _ => 0) none ⟨1, 1, 1⟩ [CountryCode.GERMANY] ⟨1, 1, 1⟩ "bottom"
      (by decide) rfl (by decide) (by decide)).2.2.1⟩

/-! ### YearOverview.write_week_numbers (excel/yearoverview.py) -/

/-- `_MONTH_FORMAT` of excel/excelbase.py (the format used for week numbers). -/
def MONTH_FORMAT : FmtMap :=
  [("bold", FmtVal.i 1), ("border", FmtVal.i 1), ("align", FmtVal.s "center"),
    ("valign", FmtVal.s "vcenter"), ("fg_color", FmtVal.s "white")]

/-- Negation of the skip test of `write_week_numbers`: the week is kept unless
its Monday is after Dec 31 or its Sunday before Jan 1 of the target year. -/
def week_intersects_year (year : Nat) (w : Week) : Prop :=
  ¬ (Date.lt ⟨year, 12, 31⟩ w.monday ∨ Date.lt w.sunday ⟨year, 1, 1⟩)

instance (year : Nat) (w : Week) : Decidable (week_intersects_year year w) := by
  unfold week_intersects_year; infer_instance

/-- The op emitted for one kept week: a single cell when the year-clamped
Monday and Sunday land in the same day-of-year column, otherwise one merged
range over the two columns (row 1 is `_RowNumbers.WEEK_NUMBERS`). -/
def emit_week (year : Nat) (w : Week) : SinkOp :=
  let first_col := day_of_year (truncate_to_year w.monday year)
  let last_col := day_of_year (truncate_to_year w.sunday year)
  if first_col = last_col then
    SinkOp.write 1 first_col (toString w.week) MONTH_FORMAT
  else
    SinkOp.mergeRange 1 1 first_col last_col (toString w.week) MONTH_FORMAT

/-- `YearOverview.write_week_numbers`: loop over the weeks of the previous,
current and next ISO years, skip weeks not overlapping the target year, and
emit one write (single cell or merged range) per remaining week. -/
def write_week_numbers (year : Nat) : List SinkOp :=
  ([year - 1, year, year + 1].flatMap weeks_of_year).filterMap (fun w =>
    if week_intersects_year year w then some (emit_week year w) else none)

theorem filterMap_if_eq_map_filter {α β : Type} (p : α → Prop) [DecidablePred p]
    (f : α → β) (l : List α) :
    l.filterMap (fun a => if p a then some (f a) else none) =
      (l.filter (fun a => decide (p a))).map f := by
  induction l with
  | nil => rfl
  | cons a t ih =>
    by_cases h : p a
    · rw [List.filterMap_cons, List.filter_cons]
      simp only [h, if_true, decide_eq_true_eq]
      simp [h, ih]
    · rw [List.filterMap_cons, List.filter_cons]
      simp [h, ih]

theorem week1_monday_ord_facts {y : Nat} (hy : 1 ≤ y) :
    days_before_year y ≤ week1_monday_ord y + 2 ∧
    week1_monday_ord y ≤ days_before_year y + 4 ∧
    1 ≤ week1_monday_ord y ∧
    (week1_monday_ord y - 1) % 7 = 0 := by
  have hj : Date.toordinal ⟨y, 1, 4⟩ = days_before_year y + 4 := rfl
  unfold week1_monday_ord
  rw [hj]
  omega

theorem week1_monday_gap {y : Nat} (hy : 1 ≤ y) :
    week1_monday_ord y + 7 ≤ week1_monday_ord (y + 1) ∧
    iso_weeks_in_year y * 7 = week1_monday_ord (y + 1) - week1_monday_ord y := by
  have f1 := week1_monday_ord_facts hy
  have f2 := week1_monday_ord_facts (show 1 ≤ y + 1 by omega)
  have hsucc := days_before_year_succ hy
  have hge := days_in_year_ge y
  unfold iso_weeks_in_year
  omega

theorem monday_ord_bounds {yy w : Nat} (hyy : 1 ≤ yy) (hw1 : 1 ≤ w)
    (hw2 : w ≤ iso_weeks_in_year yy) :
    week1_monday_ord yy ≤ week1_monday_ord yy + 7 * (w - 1) ∧
    week1_monday_ord yy + 7 * (w - 1) + 7 ≤ week1_monday_ord (yy + 1) := by
  have hg := week1_monday_gap hyy
  omega

theorem week_monday_toordinal {w : Week} (h : 1 ≤ w.year) :
    w.monday.toordinal = w.monday_ord := by
  have hf := week1_monday_ord_facts h
  unfold Week.monday
  exact (Date.fromordinal_spec (by unfold Week.monday_ord; omega)).2

theorem week_sunday_toordinal {w : Week} (h : 1 ≤ w.year) :
    w.sunday.toordinal = w.monday_ord + 6 := by
  have hf := week1_monday_ord_facts h
  unfold Week.sunday
  exact (Date.fromordinal_spec (by unfold Week.monday_ord; omega)).2

theorem week_intersects_year_iff {y : Nat} {w : Week} (hyy : 1 ≤ w.year) :
    week_intersects_year y w ↔
      (w.monday_ord ≤ Date.toordinal ⟨y, 12, 31⟩ ∧
        Date.toordinal ⟨y, 1, 1⟩ ≤ w.monday_ord + 6) := by
  have hm := week_monday_toordinal hyy
  have hs := week_sunday_toordinal hyy
  unfold week_intersects_year Date.lt
  rw [hm, hs]
  omega

theorem mem_weeks_of_year {yy : Nat} {wk : Week} (h : wk ∈ weeks_of_year yy) :
    wk.year = yy ∧ 1 ≤ wk.week ∧ wk.week ≤ iso_weeks_in_year yy := by
  unfold weeks_of_year at h
  rw [List.mem_map] at h
  obtain ⟨i, hi, rfl⟩ := h
  rw [List.mem_range] at hi
  refine ⟨rfl, ?_, ?_⟩
  · show 1 ≤ i + 1
    omega
  · show i + 1 ≤ iso_weeks_in_year yy
    omega

theorem weeks_of_year_mem {yy w : Nat} (hw1 : 1 ≤ w) (hw2 : w ≤ iso_weeks_in_year yy) :
    (⟨yy, w⟩ : Week) ∈ weeks_of_year yy := by
  unfold weeks_of_year
  rw [List.mem_map]
  refine ⟨w - 1, ?_, ?_⟩
  · rw [List.mem_range]
    omega
  · have : w - 1 + 1 = w := by omega
    rw [this]

theorem mem_scanned_weeks {y : Nat} {wk : Week}
    (h : wk ∈ [y - 1, y, y + 1].flatMap weeks_of_year) :
    (wk.year = y - 1 ∨ wk.year = y ∨ wk.year = y + 1) ∧
    1 ≤ wk.week ∧ wk.week ≤ iso_weeks_in_year wk.year := by
  rw [List.mem_flatMap] at h
  obtain ⟨yy, hyy, hwk⟩ := h
  obtain ⟨hyr, h1, h2⟩ := mem_weeks_of_year hwk
  subst hyr
  simp only [List.mem_cons, List.mem_singleton, List.not_mem_nil, or_false] at hyy
  exact ⟨hyy, h1, h2⟩

theorem scanned_weeks_mem {y yy w : Nat}
    (hyy : yy = y - 1 ∨ yy = y ∨ yy = y + 1)
    (hw1 : 1 ≤ w) (hw2 : w ≤ iso_weeks_in_year yy) :
    (⟨yy, w⟩ : Week) ∈ [y - 1, y, y + 1].flatMap weeks_of_year := by
  rw [List.mem_flatMap]
  refine ⟨yy, ?_, weeks_of_year_mem hw1 hw2⟩
  rcases hyy with rfl | rfl | rfl <;> simp

theorem intersecting_week_years {y yy w : Nat} (hy : 2 ≤ y) (hyy : 1 ≤ yy)
    (hw1 : 1 ≤ w) (hw2 : w ≤ iso_weeks_in_year yy)
    (hint : week_intersects_year y ⟨yy, w⟩) :
    yy = y - 1 ∨ yy = y ∨ yy = y + 1 := by
  rw [week_intersects_year_iff (show 1 ≤ (⟨yy, w⟩ : Week).year from hyy)] at hint
  obtain ⟨h1, h2⟩ := hint
  have hmo : (⟨yy, w⟩ : Week).monday_ord = week1_monday_ord yy + 7 * (w - 1) := rfl
  rw [hmo] at h1 h2
  have hdec : Date.toordinal ⟨y, 12, 31⟩ =
      days_before_year y + days_before_month (isleap y) 12 + 31 := rfl
  have hjan : Date.toordinal ⟨y, 1, 1⟩ = days_before_year y + 1 := rfl
  rw [hdec] at h1
  rw [hjan] at h2
  have h13 : days_before_month (isleap y) 12 + 31 = days_in_year y := by
    have ha : days_in_year y = days_before_month (isleap y) 13 := by
      unfold days_in_year
      rw [days_before_month_thirteen]
    have hbb : days_before_month (isleap y) 13 =
        days_before_month (isleap y) 12 + days_in_month (isleap y) 12 := rfl
    have hc : days_in_month (isleap y) 12 = 31 := rfl
    omega
  have hsy := days_before_year_succ (show 1 ≤ y by omega)
  have hb := monday_ord_bounds hyy hw1 hw2
  have fyy := week1_monday_ord_facts hyy
  have fyy1 := week1_monday_ord_facts (show 1 ≤ yy + 1 by omega)
  have hup : yy ≤ y + 1 := by
    by_contra hcon
    have hmono := days_before_year_le (y := y + 1) (z := yy) (by omega) (by omega)
    omega
  have hlo : y ≤ yy + 1 := by
    by_contra hcon
    have hmono := days_before_year_le (y := yy + 1) (z := y) (by omega) (by omega)
    omega
  omega

theorem weeks_of_year_nodup (yy : Nat) : (weeks_of_year yy).Nodup := by
  unfold weeks_of_year
  refine List.Nodup.map_on ?_ (List.nodup_range _)
  intro a _ b _ hab
  injection hab with h1 h2
  omega

theorem scanned_weeks_nodup {y : Nat} (hy : 2 ≤ y) :
    ([y - 1, y, y + 1].flatMap weeks_of_year).Nodup := by
  have hflat : [y - 1, y, y + 1].flatMap weeks_of_year =
      weeks_of_year (y - 1) ++ (weeks_of_year y ++ weeks_of_year (y + 1)) := by
    simp [List.flatMap_cons, List.flatMap_nil]
  rw [hflat, List.nodup_append]
  refine ⟨weeks_of_year_nodup _, ?_, ?_⟩
  · rw [List.nodup_append]
    refine ⟨weeks_of_year_nodup _, weeks_of_year_nodup _, ?_⟩
    intro a ha hb
    have h1 := (mem_weeks_of_year ha).1
    have h2 := (mem_weeks_of_year hb).1
    omega
  · intro a ha hb
    have h1 := (mem_weeks_of_year ha).1
    rw [List.mem_append] at hb
    rcases hb with hb | hb
    · have h2 := (mem_weeks_of_year hb).1
      omega
    · have h2 := (mem_weeks_of_year hb).1
      omega

theorem scanned_weeks_monday_nodup {y : Nat} (hy : 2 ≤ y) :
    (([y - 1, y, y + 1].flatMap weeks_of_year).map Week.monday_ord).Nodup := by
  refine List.Nodup.map_on ?_ (scanned_weeks_nodup hy)
  intro a ha b hb heq
  obtain ⟨ayr, aw⟩ := a
  obtain ⟨byr, bw⟩ := b
  obtain ⟨hya, ha1, ha2⟩ := mem_scanned_weeks ha
  obtain ⟨hyb, hb1, hb2⟩ := mem_scanned_weeks hb
  simp only at hya ha1 ha2 hyb hb1 hb2
  have hya1 : 1 ≤ ayr := by omega
  have hyb1 : 1 ≤ byr := by omega
  have hba := monday_ord_bounds hya1 ha1 ha2
  have hbb := monday_ord_bounds hyb1 hb1 hb2
  have hmoa : (⟨ayr, aw⟩ : Week).monday_ord = week1_monday_ord ayr + 7 * (aw - 1) := rfl
  have hmob : (⟨byr, bw⟩ : Week).monday_ord = week1_monday_ord byr + 7 * (bw - 1) := rfl
  rw [hmoa, hmob] at heq
  have hg1 := week1_monday_gap (y := y - 1) (show 1 ≤ y - 1 by omega)
  have hg2 := week1_monday_gap (y := y) (by omega)
  have hg3 := week1_monday_gap (y := y + 1) (by omega)
  have hy1 : y - 1 + 1 = y := by omega
  rw [hy1] at hg1
  have hyear : ayr = byr := by
    rcases hya with h | h | h <;> rcases hyb with h' | h' | h' <;>
      (subst h; subst h'; omega)
  subst hyear
  have hweek : aw = bw := by omega
  subst hweek
  rfl

/-- C8: the week-number pass emits exactly the per-week ops of the intersecting
weeks: the emitted list is one op per scanned intersecting week; the scanned
weeks (previous/target/next ISO year) are pairwise distinct even by their
Monday ordinals, so no week is emitted twice; every valid ISO week that
intersects the target year lies in one of the three scanned years and is
counted exactly once; non-intersecting weeks are never emitted; and the op is
a single cell exactly when the clamped Monday and Sunday share a column,
otherwise one merged range over the two columns. -/
theorem C8_week_numbers_per_week (y : Nat) (hy : 2 ≤ y) :
    write_week_numbers y =
      (([y - 1, y, y + 1].flatMap weeks_of_year).filter
        (fun w => decide (week_intersects_year y w))).map (emit_week y) ∧
    (([y - 1, y, y + 1].flatMap weeks_of_year).map Week.monday_ord).Nodup ∧
    (∀ yy w, 1 ≤ yy → 1 ≤ w → w ≤ iso_weeks_in_year yy →
      week_intersects_year y ⟨yy, w⟩ →
      (yy = y - 1 ∨ yy = y ∨ yy = y + 1) ∧
      (([y - 1, y, y + 1].flatMap weeks_of_year).filter
        (fun w' => decide (week_intersects_year y w'))).count ⟨yy, w⟩ = 1) ∧
    (∀ yy w, ¬ week_intersects_year y ⟨yy, w⟩ →
      (([y - 1, y, y + 1].flatMap weeks_of_year).filter
        (fun w' => decide (week_intersects_year y w'))).count ⟨yy, w⟩ = 0) ∧
    (∀ wk : Week,
      (day_of_year (truncate_to_year wk.monday y) =
          day_of_year (truncate_to_year wk.sunday y) →
        emit_week y wk = SinkOp.write 1 (day_of_year (truncate_to_year wk.monday y))
          (toString wk.week) MONTH_FORMAT) ∧
      (day_of_year (truncate_to_year wk.monday y) ≠
          day_of_year (truncate_to_year wk.sunday y) →
        emit_week y wk = SinkOp.mergeRange 1 1
          (day_of_year (truncate_to_year wk.monday y))
          (day_of_year (truncate_to_year wk.sunday y))
          (toString wk.week) MONTH_FORMAT)) := by
  refine ⟨?_, scanned_weeks_monday_nodup hy, ?_, ?_, ?_⟩
  · unfold write_week_numbers
    exact filterMap_if_eq_map_filter _ _ _
  · intro yy w hyy hw1 hw2 hint
    have hyrs := intersecting_week_years hy hyy hw1 hw2 hint
    refine ⟨hyrs, ?_⟩
    have hmem := scanned_weeks_mem hyrs hw1 hw2
    have hmemf : (⟨yy, w⟩ : Week) ∈ ([y - 1, y, y + 1].flatMap weeks_of_year).filter
        (fun w' => decide (week_intersects_year y w')) := by
      rw [List.mem_filter]
      exact ⟨hmem, by simpa using hint⟩
    exact List.count_eq_one_of_mem
      (List.Nodup.filter _ (List.Nodup.of_map _ (scanned_weeks_monday_nodup hy))) hmemf
  · intro yy w hnint
    rw [List.count_eq_zero]
    intro hmem
    rw [List.mem_filter] at hmem
    exact hnint (by simpa using hmem.2)
  · intro wk
    constructor
    · intro h
      simp only [emit_week]
      rw [if_pos h]
    · intro h
      simp only [emit_week]
      rw [if_neg h]

/-- Witness for C8 at the concrete target year 2024. -/
theorem C8_week_numbers_per_week_witness :
    (2 : Nat) ≤ 2024 ∧
    write_week_numbers 2024 =
      (([2024 - 1, 2024, 2024 + 1].flatMap weeks_of_year).filter
        (fun w => decide (week_intersects_year 2024 w))).map (emit_week 2024) :=
  ⟨by norm_num, (C8_week_numbers_per_week 2024 (by norm_num)).1⟩
